import Mathlib

/-!
Verification of the streaming-job creation/replacement controller and the
row-encoding utilities of this repository, as a shallow embedding in Lean.

The embedding follows the source files:
* `src/meta/src/rpc/ddl_controller_v2.rs` — the DDL controller workflows,
  modelled as pure functions from an environment (the outcome of every
  external-collaborator call) to a result together with the trace of calls
  the workflow performs, in source order.
* `rust/common/src/array/data_chunk_iter.rs` — the chunk row iterator and the
  memcomparable row (de)serializer.

External collaborators whose code is not part of this snapshot (the catalog
controller, stream manager, fragment-graph builder, the `memcomparable`
scalar encoding, the `DataChunk` container) are modelled from the spec; each
such definition carries a doc comment saying so.
-/

namespace RisingWave

/-! ## Memcomparable byte-level encoding (for `Row::serialize`) -/

/-- Errors of the memcomparable deserializer (`memcomparable::Error`). -/
inductive MemError where
  | eof
  | invalidTagEncoding (t : Nat)
  | invalidBoolEncoding (b : Nat)
  | invalidBytesMarker (m : Nat)
deriving DecidableEq

/-- Modelled from the spec: big-endian fixed-width byte encoding of a natural
number, the order-preserving integer layout of the memcomparable format. -/
def natToBytes : Nat → Nat → List Nat
  | 0, _ => []
  | k + 1, n => natToBytes k (n / 256) ++ [n % 256]

/-- Modelled from the spec: read `k` big-endian bytes, folding into `acc`. -/
def readBytesAux : Nat → Nat → List Nat → Option (Nat × List Nat)
  | 0, acc, rest => some (acc, rest)
  | _ + 1, _, [] => none
  | k + 1, acc, b :: rest => readBytesAux k (acc * 256 + b) rest

theorem natToBytes_length (k n : Nat) : (natToBytes k n).length = k := by
  induction k generalizing n with
  | zero => rfl
  | succ k ih => simp [natToBytes, ih]

theorem readBytesAux_append (xs : List Nat) (acc : Nat) (rest : List Nat) :
    readBytesAux xs.length acc (xs ++ rest) =
      some (xs.foldl (fun a b => a * 256 + b) acc, rest) := by
  induction xs generalizing acc with
  | nil => rfl
  | cons b xs ih => simp [readBytesAux, ih]

theorem foldl_natToBytes (k n acc : Nat) (h : n < 256 ^ k) :
    (natToBytes k n).foldl (fun a b => a * 256 + b) acc = acc * 256 ^ k + n := by
  induction k generalizing n acc with
  | zero =>
    interval_cases n
    simp [natToBytes]
  | succ k ih =>
    have hdiv : n / 256 < 256 ^ k := by
      rw [Nat.div_lt_iff_lt_mul (by norm_num)]
      calc n < 256 ^ (k + 1) := h
        _ = 256 ^ k * 256 := by ring
    simp only [natToBytes, List.foldl_append, ih (n / 256) acc hdiv, List.foldl_cons,
      List.foldl_nil]
    have := Nat.div_add_mod n 256
    ring_nf
    omega

theorem readBytesAux_natToBytes (k n acc : Nat) (rest : List Nat) (h : n < 256 ^ k) :
    readBytesAux k acc (natToBytes k n ++ rest) = some (acc * 256 ^ k + n, rest) := by
  have hlen := natToBytes_length k n
  have := readBytesAux_append (natToBytes k n) acc rest
  rw [hlen] at this
  rw [this, foldl_natToBytes k n acc h]

/-- Modelled from the spec: the memcomparable group encoding of a byte string
(`serialize_bytes` of the `memcomparable` crate, an external dependency).
Bytes are written in groups of 8; a full group that is followed by more data
is terminated by the marker byte `9`, the final group is padded with zeros and
terminated by the number of bytes it actually holds.  This is the layout the
repository's own test exercises: serializing the 6-byte string `"string"`
yields 9 bytes. -/
def encodeBytes (l : List Nat) : List Nat :=
  if h : 8 ≤ l.length then
    l.take 8 ++ 9 :: encodeBytes (l.drop 8)
  else
    l ++ List.replicate (8 - l.length) 0 ++ [l.length]
termination_by l.length
decreasing_by simp; omega

/-- Modelled from the spec: the memcomparable group decoding of a byte string
(`deserialize_bytes` of the `memcomparable` crate).  Reads groups of 8 bytes
followed by a marker byte; marker `9` means the group is full and more groups
follow, a marker `≤ 8` gives the length of the final group, anything else is
an invalid marker. -/
def decodeBytes (data : List Nat) : Except MemError (List Nat × List Nat) :=
  if h : data.length < 9 then .error .eof
  else
    let group := data.take 8
    let m := data.getD 8 0
    if m = 9 then
      match decodeBytes (data.drop 9) with
      | .ok (tail, rem) => .ok (group ++ tail, rem)
      | .error e => .error e
    else if m ≤ 8 then .ok (group.take m, data.drop 9)
    else .error (.invalidBytesMarker m)
termination_by data.length
decreasing_by simp; omega

theorem group_take8 (xs : List Nat) (h : xs.length = 8) (y : Nat) (ys : List Nat) :
    (xs ++ y :: ys).take 8 = xs := by
  rw [← h, List.take_left]

theorem group_getD8 (xs : List Nat) (h : xs.length = 8) (y : Nat) (ys : List Nat) :
    (xs ++ y :: ys).getD 8 0 = y := by
  unfold List.getD
  rw [List.get?_append_right (by omega)]
  simp [h]

theorem group_drop9 (xs : List Nat) (h : xs.length = 8) (y : Nat) (ys : List Nat) :
    (xs ++ y :: ys).drop 9 = ys := by
  have : ((xs ++ [y]) ++ ys).drop 9 = ys := List.drop_left' (by simp [h])
  simpa using this

theorem decodeBytes_encodeBytes (l rest : List Nat) :
    decodeBytes (encodeBytes l ++ rest) = .ok (l, rest) := by
  suffices H : ∀ k (l rest : List Nat), l.length = k →
      decodeBytes (encodeBytes l ++ rest) = .ok (l, rest) from H l.length l rest rfl
  intro k
  induction k using Nat.strong_induction_on with
  | _ k ih =>
  intro l rest hk
  subst hk
  by_cases h : 8 ≤ l.length
  · rw [encodeBytes, dif_pos h]
    have hlen8 : (l.take 8).length = 8 := by simp; omega
    have hshape : (l.take 8 ++ 9 :: encodeBytes (l.drop 8)) ++ rest =
        l.take 8 ++ 9 :: (encodeBytes (l.drop 8) ++ rest) := by simp
    rw [hshape, decodeBytes]
    rw [dif_neg (by simp [hlen8]; omega)]
    simp only [group_take8 _ hlen8, group_getD8 _ hlen8, group_drop9 _ hlen8, if_pos rfl]
    rw [ih (l.drop 8).length (by simp; omega) (l.drop 8) rest rfl]
    simp
  · rw [encodeBytes, dif_neg h]
    have hlen : (l ++ List.replicate (8 - l.length) 0).length = 8 := by simp; omega
    have hshape : (l ++ List.replicate (8 - l.length) 0 ++ [l.length]) ++ rest =
        (l ++ List.replicate (8 - l.length) 0) ++ l.length :: rest := by simp
    rw [hshape, decodeBytes]
    rw [dif_neg (by simp [hlen]; omega)]
    simp only [group_take8 _ hlen, group_getD8 _ hlen, group_drop9 _ hlen]
    rw [if_neg (by omega), if_pos (by omega)]
    have : (l ++ List.replicate (8 - l.length) 0).take l.length = l := by
      rw [List.take_append_of_le_length (by omega)]
      simp
    simp [this]

/-! ## Scalar values and the memcomparable scalar encoding -/

/-- Modelled from the spec: the sign-mangling bijection the memcomparable
format applies to an IEEE-754 bit pattern so that byte order matches the
numeric total order (`k` is the index of the sign bit, 31 or 63). -/
def floatMangle (k b : Nat) : Nat :=
  if b < 2 ^ k then b + 2 ^ k else 2 ^ (k + 1) - 1 - b

/-- Modelled from the spec: inverse of `floatMangle`. -/
def floatUnmangle (k m : Nat) : Nat :=
  if m < 2 ^ k then 2 ^ (k + 1) - 1 - m else m - 2 ^ k

theorem floatUnmangle_floatMangle (k b : Nat) (h : b < 2 ^ (k + 1)) :
    floatUnmangle k (floatMangle k b) = b := by
  unfold floatMangle floatUnmangle
  have h2 : 2 ^ (k + 1) = 2 ^ k + 2 ^ k := by rw [pow_succ]; omega
  by_cases hb : b < 2 ^ k
  · rw [if_pos hb, if_neg (by omega)]
    omega
  · rw [if_neg hb, if_pos (by omega)]
    omega

theorem floatMangle_lt (k b : Nat) (h : b < 2 ^ (k + 1)) :
    floatMangle k b < 2 ^ (k + 1) := by
  unfold floatMangle
  have h2 : 2 ^ (k + 1) = 2 ^ k + 2 ^ k := by rw [pow_succ]; omega
  by_cases hb : b < 2 ^ k <;> simp [hb] <;> omega

/-- The scalar values of `crate::types::ScalarImpl` as used by
`data_chunk_iter.rs` (the `types` module is not part of this snapshot, so the
payloads are modelled: signed integers as `Int`, floats by their IEEE-754 bit
patterns, strings by their UTF-8 bytes, intervals by (months, days, ms); the
`Decimal` variant is not modelled). -/
inductive ScalarImpl where
  | bool (b : Bool)
  | int16 (i : Int)
  | int32 (i : Int)
  | int64 (i : Int)
  | float32 (bits : Nat)
  | float64 (bits : Nat)
  | utf8 (bytes : List Nat)
  | interval (months : Int) (days : Int) (ms : Int)
deriving DecidableEq

/-- The data types of `crate::types::DataTypeKind` relevant to the modelled
scalar variants. -/
inductive DataTypeKind where
  | boolean
  | int16
  | int32
  | int64
  | float32
  | float64
  | varchar
  | interval
deriving DecidableEq

/-- `Datum = Option<ScalarImpl>`. -/
abbrev Datum := Option ScalarImpl

/-- A scalar conforms to a data-type kind: matching constructor and payload in
the range of the corresponding machine type. -/
def conforms : DataTypeKind → ScalarImpl → Bool
  | .boolean, .bool _ => true
  | .int16, .int16 i => decide (-(2 ^ 15) ≤ i) && decide (i < 2 ^ 15)
  | .int32, .int32 i => decide (-(2 ^ 31) ≤ i) && decide (i < 2 ^ 31)
  | .int64, .int64 i => decide (-(2 ^ 63) ≤ i) && decide (i < 2 ^ 63)
  | .float32, .float32 b => decide (b < 2 ^ 32)
  | .float64, .float64 b => decide (b < 2 ^ 64)
  | .varchar, .utf8 bs => bs.all (fun b => decide (b < 256))
  | .interval, .interval m d ms =>
      decide (-(2 ^ 31) ≤ m) && decide (m < 2 ^ 31) &&
      (decide (-(2 ^ 31) ≤ d) && decide (d < 2 ^ 31)) &&
      (decide (-(2 ^ 63) ≤ ms) && decide (ms < 2 ^ 63))
  | _, _ => false

/-- Modelled from the spec: memcomparable encoding of a signed integer of
width `8 * k` bits — two's complement big-endian with the sign bit flipped,
i.e. offset binary. -/
def intToBytes (k : Nat) (i : Int) : List Nat :=
  natToBytes k (i + 2 ^ (8 * k - 1)).toNat

/-- Modelled from the spec: `ScalarImpl::serialize` into the memcomparable
format (external to this snapshot). -/
def scalarSerialize : ScalarImpl → List Nat
  | .bool b => [if b then 1 else 0]
  | .int16 i => intToBytes 2 i
  | .int32 i => intToBytes 4 i
  | .int64 i => intToBytes 8 i
  | .float32 b => natToBytes 4 (floatMangle 31 b)
  | .float64 b => natToBytes 8 (floatMangle 63 b)
  | .utf8 bs => encodeBytes bs
  | .interval m d ms => intToBytes 4 m ++ (intToBytes 4 d ++ intToBytes 8 ms)

/-- Read `k` big-endian bytes as a `Nat`, or fail with `Eof`. -/
def readBE (k : Nat) (data : List Nat) : Except MemError (Nat × List Nat) :=
  match readBytesAux k 0 data with
  | some r => .ok r
  | none => .error .eof

/-- Modelled from the spec: `ScalarImpl::deserialize` from the memcomparable
format, dispatching on the data-type kind. -/
def scalarDeserialize : DataTypeKind → List Nat → Except MemError (ScalarImpl × List Nat)
  | .boolean, data =>
      match data with
      | 0 :: rest => .ok (.bool false, rest)
      | 1 :: rest => .ok (.bool true, rest)
      | b :: _ => .error (.invalidBoolEncoding b)
      | [] => .error .eof
  | .int16, data =>
      (readBE 2 data).map fun r => (.int16 ((r.1 : Int) - 2 ^ 15), r.2)
  | .int32, data =>
      (readBE 4 data).map fun r => (.int32 ((r.1 : Int) - 2 ^ 31), r.2)
  | .int64, data =>
      (readBE 8 data).map fun r => (.int64 ((r.1 : Int) - 2 ^ 63), r.2)
  | .float32, data =>
      (readBE 4 data).map fun r => (.float32 (floatUnmangle 31 r.1), r.2)
  | .float64, data =>
      (readBE 8 data).map fun r => (.float64 (floatUnmangle 63 r.1), r.2)
  | .varchar, data =>
      (decodeBytes data).map fun r => (.utf8 r.1, r.2)
  | .interval, data => do
      let (m, rest) ← readBE 4 data
      let (d, rest) ← readBE 4 rest
      let (ms, rest) ← readBE 8 rest
      pure (.interval ((m : Int) - 2 ^ 31) ((d : Int) - 2 ^ 31) ((ms : Int) - 2 ^ 63), rest)

theorem readBE_intToBytes (k : Nat) (i : Int) (rest : List Nat)
    (hlo : -(2 ^ (8 * k - 1) : Int) ≤ i) (hhi : i < 2 ^ (8 * k - 1)) (hk : 0 < k) :
    readBE k (intToBytes k i ++ rest) = .ok ((i + 2 ^ (8 * k - 1)).toNat, rest) := by
  unfold readBE intToBytes
  have hpow : (2 : Int) ^ (8 * k - 1) * 2 = 2 ^ (8 * k) := by
    rw [← pow_succ]
    congr 1
    omega
  have hcast : (((256 : Nat) ^ k : Nat) : Int) = 2 ^ (8 * k) := by
    push_cast
    rw [show (256 : Int) = 2 ^ 8 by norm_num, ← pow_mul]
  have hbound : (i + 2 ^ (8 * k - 1)).toNat < 256 ^ k := by
    have hlt : i + 2 ^ (8 * k - 1) < (((256 : Nat) ^ k : Nat) : Int) := by
      rw [hcast]
      omega
    omega
  rw [readBytesAux_natToBytes k _ 0 rest hbound]
  simp

theorem scalarDeserialize_scalarSerialize (ty : DataTypeKind) (v : ScalarImpl)
    (rest : List Nat) (h : conforms ty v = true) :
    scalarDeserialize ty (scalarSerialize v ++ rest) = .ok (v, rest) := by
  cases ty <;> cases v <;> simp [conforms] at h <;>
    simp only [scalarSerialize, scalarDeserialize]
  case boolean.bool b =>
    cases b <;> simp
  case int16.int16 i =>
    rw [readBE_intToBytes 2 i rest (by exact_mod_cast h.1) (by exact_mod_cast h.2) (by omega)]
    simp only [Except.map]
    congr 2
    have : ((i + 2 ^ (8 * 2 - 1)).toNat : Int) = i + 2 ^ 15 := by
      push_cast
      omega
    rw [this]
    ring
  case int32.int32 i =>
    rw [readBE_intToBytes 4 i rest (by exact_mod_cast h.1) (by exact_mod_cast h.2) (by omega)]
    simp only [Except.map]
    congr 2
    have : ((i + 2 ^ (8 * 4 - 1)).toNat : Int) = i + 2 ^ 31 := by
      push_cast
      omega
    rw [this]
    ring
  case int64.int64 i =>
    rw [readBE_intToBytes 8 i rest (by exact_mod_cast h.1) (by exact_mod_cast h.2) (by omega)]
    simp only [Except.map]
    congr 2
    have : ((i + 2 ^ (8 * 8 - 1)).toNat : Int) = i + 2 ^ 63 := by
      push_cast
      omega
    rw [this]
    ring
  case float32.float32 b =>
    unfold readBE
    rw [readBytesAux_natToBytes 4 _ 0 rest (by
      have := floatMangle_lt 31 b (by exact_mod_cast h)
      norm_num at this ⊢
      omega)]
    simp [Except.map, floatUnmangle_floatMangle 31 b (by exact_mod_cast h)]
  case float64.float64 b =>
    unfold readBE
    rw [readBytesAux_natToBytes 8 _ 0 rest (by
      have := floatMangle_lt 63 b (by exact_mod_cast h)
      norm_num at this ⊢
      omega)]
    simp [Except.map, floatUnmangle_floatMangle 63 b (by exact_mod_cast h)]
  case varchar.utf8 bs =>
    rw [decodeBytes_encodeBytes bs rest]
    simp [Except.map]
  case interval.interval m d ms =>
    obtain ⟨⟨⟨hm1, hm2⟩, ⟨hd1, hd2⟩⟩, ⟨hms1, hms2⟩⟩ := h
    have hassoc : (intToBytes 4 m ++ (intToBytes 4 d ++ intToBytes 8 ms)) ++ rest =
        intToBytes 4 m ++ (intToBytes 4 d ++ (intToBytes 8 ms ++ rest)) := by simp
    rw [hassoc,
      readBE_intToBytes 4 m _ (by exact_mod_cast hm1) (by exact_mod_cast hm2) (by omega)]
    simp only [bind, Except.bind]
    rw [readBE_intToBytes 4 d _ (by exact_mod_cast hd1) (by exact_mod_cast hd2) (by omega)]
    simp only [bind, Except.bind]
    rw [readBE_intToBytes 8 ms _ (by exact_mod_cast hms1) (by exact_mod_cast hms2) (by omega)]
    simp [bind, Except.bind, pure, Except.pure]
    omega

/-! ## `Row` and `RowDeserializer` (from `data_chunk_iter.rs`) -/

/-- `pub struct Row(pub Vec<Datum>)`. -/
structure Row where
  val : List Datum
deriving DecidableEq

/-- One datum as written by `Row::serialize`: a null tag byte (`1` = present,
`0` = null) followed by the memcomparable encoding of the value. -/
def serializeDatum : Datum → List Nat
  | some v => 1 :: scalarSerialize v
  | none => [0]

def serializeDatums (ds : List Datum) : List Nat :=
  ds.foldr (fun d acc => serializeDatum d ++ acc) []

/-- `Row::serialize`: serialize the row into memcomparable bytes, every value
prefixed by its null tag.  (The Rust function returns `Result`; for the
modelled scalar kinds serialization never fails, so the byte string is
returned directly.) -/
def Row.serialize (r : Row) : List Nat :=
  serializeDatums r.val

def serializeDatumsNotNull : List Datum → Option (List Nat)
  | [] => some []
  | none :: _ => none
  | some v :: ds => (serializeDatumsNotNull ds).map (fun bs => scalarSerialize v ++ bs)

/-- `Row::serialize_not_null`: serialize without null tags; the Rust code
`expect`s every value to be non-null (a panic, modelled as `none`). -/
def Row.serializeNotNull (r : Row) : Option (List Nat) :=
  serializeDatumsNotNull r.val

/-- `RowDeserializer { schema: Vec<DataTypeKind> }`. -/
structure RowDeserializer where
  schema : List DataTypeKind

/-- `RowDeserializer::new`. -/
def RowDeserializer.new (schema : List DataTypeKind) : RowDeserializer :=
  ⟨schema⟩

/-- The column loop of `RowDeserializer::deserialize`: for every schema type
read the null tag (`0` pushes `None`, `1` reads a scalar of that type, any
other byte is an `InvalidTagEncoding` error). -/
def deserializeDatums : List DataTypeKind → List Nat → Except MemError (List Datum)
  | [], _ => .ok []
  | ty :: tys, data =>
    match data with
    | 0 :: rest => (deserializeDatums tys rest).map (fun ds => none :: ds)
    | 1 :: rest =>
        match scalarDeserialize ty rest with
        | .ok (v, rest') => (deserializeDatums tys rest').map (fun ds => some v :: ds)
        | .error e => .error e
    | t :: _ => .error (.invalidTagEncoding t)
    | [] => .error .eof

/-- `RowDeserializer::deserialize`. -/
def RowDeserializer.deserialize (d : RowDeserializer) (data : List Nat) :
    Except MemError Row :=
  (deserializeDatums d.schema data).map Row.mk

/-- The column loop of `RowDeserializer::deserialize_not_null`: every value is
read as a present scalar of the schema type. -/
def deserializeDatumsNotNull : List DataTypeKind → List Nat → Except MemError (List Datum)
  | [], _ => .ok []
  | ty :: tys, data =>
      match scalarDeserialize ty data with
      | .ok (v, rest) => (deserializeDatumsNotNull tys rest).map (fun ds => some v :: ds)
      | .error e => .error e

/-- `RowDeserializer::deserialize_not_null`. -/
def RowDeserializer.deserializeNotNull (d : RowDeserializer) (data : List Nat) :
    Except MemError Row :=
  (deserializeDatumsNotNull d.schema data).map Row.mk

/-- The datums conform to the schema: same length, and every present value
conforms to the corresponding data-type kind. -/
def datumsConform : List DataTypeKind → List Datum → Bool
  | [], [] => true
  | [], _ :: _ => false
  | _ :: _, [] => false
  | ty :: tys, d :: ds =>
      (match d with
       | none => true
       | some v => conforms ty v) && datumsConform tys ds

theorem deserializeDatums_serializeDatums (tys : List DataTypeKind) (ds : List Datum)
    (rest : List Nat) (h : datumsConform tys ds = true) :
    deserializeDatums tys (serializeDatums ds ++ rest) = .ok ds := by
  induction tys generalizing ds rest with
  | nil =>
    cases ds with
    | nil => rfl
    | cons d ds => simp [datumsConform] at h
  | cons ty tys ih =>
    cases ds with
    | nil => simp [datumsConform] at h
    | cons d ds =>
      cases d with
      | none =>
        simp only [datumsConform, Bool.true_and] at h
        have : serializeDatums (none :: ds) ++ rest =
            0 :: (serializeDatums ds ++ rest) := by
          simp [serializeDatums, serializeDatum]
        rw [this, deserializeDatums, ih ds rest h]
        rfl
      | some v =>
        simp only [datumsConform, Bool.and_eq_true] at h
        have : serializeDatums (some v :: ds) ++ rest =
            1 :: (scalarSerialize v ++ (serializeDatums ds ++ rest)) := by
          simp [serializeDatums, serializeDatum]
        rw [this, deserializeDatums]
        rw [scalarDeserialize_scalarSerialize ty v _ h.1]
        simp [ih ds rest h.2, Except.map]

theorem deserializeDatumsNotNull_serialize (tys : List DataTypeKind) (ds : List Datum)
    (rest bs : List Nat) (h : datumsConform tys ds = true)
    (hb : serializeDatumsNotNull ds = some bs) :
    deserializeDatumsNotNull tys (bs ++ rest) = .ok ds := by
  induction tys generalizing ds rest bs with
  | nil =>
    cases ds with
    | nil =>
      simp [serializeDatumsNotNull] at hb
      subst hb
      rfl
    | cons d ds => simp [datumsConform] at h
  | cons ty tys ih =>
    cases ds with
    | nil => simp [datumsConform] at h
    | cons d ds =>
      cases d with
      | none => simp [serializeDatumsNotNull] at hb
      | some v =>
        simp only [datumsConform, Bool.and_eq_true] at h
        rw [serializeDatumsNotNull] at hb
        cases hbs : serializeDatumsNotNull ds with
        | none => rw [hbs] at hb; simp [Option.map] at hb
        | some bs' =>
          rw [hbs] at hb
          simp only [Option.map, Option.some.injEq] at hb
          subst hb
          rw [List.append_assoc, deserializeDatumsNotNull]
          rw [scalarDeserialize_scalarSerialize ty v _ h.1]
          simp [ih ds rest bs' h.2 hbs, Except.map]

/-- C10: round-trip of the row encoding.  For every row whose datums conform
to the schema, `RowDeserializer::new(schema).deserialize` inverts
`Row::serialize`; and whenever `serialize_not_null` succeeds (all values
non-null), `deserialize_not_null` inverts it. -/
theorem c10_row_encoding_roundtrip (schema : List DataTypeKind) (r : Row)
    (h : datumsConform schema r.val = true) :
    (RowDeserializer.new schema).deserialize r.serialize = .ok r ∧
    (∀ bs, r.serializeNotNull = some bs →
        (RowDeserializer.new schema).deserializeNotNull bs = .ok r) := by
  constructor
  · have := deserializeDatums_serializeDatums schema r.val [] h
    rw [List.append_nil] at this
    rw [RowDeserializer.deserialize, Row.serialize, RowDeserializer.new, this]
    rfl
  · intro bs hb
    have := deserializeDatumsNotNull_serialize schema r.val [] bs h hb
    rw [List.append_nil] at this
    rw [RowDeserializer.deserializeNotNull, RowDeserializer.new, this]
    rfl

/-- Witness for C10 at a concrete schema and row. -/
theorem c10_row_encoding_roundtrip_witness :
    datumsConform [DataTypeKind.boolean, DataTypeKind.int16, DataTypeKind.varchar]
      [some (ScalarImpl.bool true), none, some (ScalarImpl.utf8 [104, 105])] = true ∧
    ((RowDeserializer.new [DataTypeKind.boolean, DataTypeKind.int16, DataTypeKind.varchar]).deserialize
        (Row.mk [some (ScalarImpl.bool true), none, some (ScalarImpl.utf8 [104, 105])]).serialize =
      .ok (Row.mk [some (ScalarImpl.bool true), none, some (ScalarImpl.utf8 [104, 105])]) ∧
    (∀ bs, (Row.mk [some (ScalarImpl.bool true), none,
          some (ScalarImpl.utf8 [104, 105])]).serializeNotNull = some bs →
        (RowDeserializer.new [DataTypeKind.boolean, DataTypeKind.int16,
            DataTypeKind.varchar]).deserializeNotNull bs =
          .ok (Row.mk [some (ScalarImpl.bool true), none, some (ScalarImpl.utf8 [104, 105])]))) :=
  ⟨by decide,
   c10_row_encoding_roundtrip
     [DataTypeKind.boolean, DataTypeKind.int16, DataTypeKind.varchar]
     (Row.mk [some (ScalarImpl.bool true), none, some (ScalarImpl.utf8 [104, 105])])
     (by decide)⟩

/-! ## The `DataChunk` row iterator (from `data_chunk_iter.rs`) -/

/-- Modelled from the spec: the columnar value container.  Only the contract
`data_chunk_iter.rs` relies on is modelled: a capacity (number of row slots)
and, per index, a row value together with its visibility bit. -/
structure DataChunk where
  entries : List (Row × Bool)

/-- Modelled from the spec: `DataChunk::capacity`, the number of row slots. -/
def DataChunk.capacity (c : DataChunk) : Nat :=
  c.entries.length

/-- Modelled from the spec: `DataChunk::row_at` returns the row at an index
together with its visibility bit, and fails for an out-of-range index. -/
def DataChunk.row_at (c : DataChunk) (pos : Nat) : Except Unit (Row × Bool) :=
  match c.entries.get? pos with
  | some e => .ok e
  | none => .error ()

/-- `DataChunkRefIter { chunk, idx }`. -/
structure DataChunkRefIter where
  chunk : DataChunk
  idx : Nat

/-- `DataChunk::rows`: an iterator starting at index 0. -/
def DataChunk.rows (c : DataChunk) : DataChunkRefIter :=
  ⟨c, 0⟩

/-- `Iterator::next` of `DataChunkRefIter`: loop from the current index,
returning `none` once the index reaches the chunk capacity (or `row_at`
fails), skipping rows whose visibility bit is unset, and yielding the first
visible row together with the advanced iterator. -/
def DataChunkRefIter.next (it : DataChunkRefIter) : Option (Row × DataChunkRefIter) :=
  if _h : it.chunk.capacity ≤ it.idx then none
  else
    match it.chunk.row_at it.idx with
    | .error _ => none
    | .ok (row, vis) =>
      if vis then some (row, ⟨it.chunk, it.idx + 1⟩)
      else DataChunkRefIter.next ⟨it.chunk, it.idx + 1⟩
termination_by it.chunk.capacity - it.idx
decreasing_by simp [DataChunk.capacity] at _h ⊢; omega

theorem next_of_capacity_le (c : DataChunk) (i : Nat) (h : c.capacity ≤ i) :
    (DataChunkRefIter.mk c i).next = none := by
  rw [DataChunkRefIter.next]
  simp [h]

theorem next_of_visible (c : DataChunk) (i : Nat) (r : Row)
    (h : c.entries.get? i = some (r, true)) :
    (DataChunkRefIter.mk c i).next = some (r, DataChunkRefIter.mk c (i + 1)) := by
  have hlt : i < c.capacity := by
    rw [DataChunk.capacity]
    obtain ⟨hl, _⟩ := List.get?_eq_some.mp h
    exact hl
  rw [DataChunkRefIter.next]
  simp only [DataChunk.row_at, h]
  rw [dif_neg (by omega)]
  simp

theorem next_of_invisible (c : DataChunk) (i : Nat) (r : Row)
    (h : c.entries.get? i = some (r, false)) :
    (DataChunkRefIter.mk c i).next = (DataChunkRefIter.mk c (i + 1)).next := by
  have hlt : i < c.capacity := by
    rw [DataChunk.capacity]
    obtain ⟨hl, _⟩ := List.get?_eq_some.mp h
    exact hl
  rw [DataChunkRefIter.next]
  simp only [DataChunk.row_at, h]
  rw [dif_neg (by omega)]
  simp

theorem next_bounds (it : DataChunkRefIter) (r : Row) (it' : DataChunkRefIter)
    (h : it.next = some (r, it')) :
    it'.chunk = it.chunk ∧ it.idx < it'.idx ∧ it'.idx ≤ it.chunk.capacity := by
  suffices H : ∀ n (it : DataChunkRefIter) (r : Row) (it' : DataChunkRefIter),
      it.chunk.capacity - it.idx = n → it.next = some (r, it') →
      it'.chunk = it.chunk ∧ it.idx < it'.idx ∧ it'.idx ≤ it.chunk.capacity from
    H _ it r it' rfl h
  intro n
  induction n using Nat.strong_induction_on with
  | _ n ih =>
  intro it r it' hn h
  obtain ⟨c, i⟩ := it
  rw [DataChunkRefIter.next] at h
  simp only at h hn
  by_cases hcap : c.capacity ≤ i
  · rw [dif_pos hcap] at h
    exact absurd h (by simp)
  · rw [dif_neg hcap] at h
    cases hrow : c.row_at i with
    | error e =>
      rw [hrow] at h
      exact absurd h (by simp)
    | ok p =>
      obtain ⟨row, vis⟩ := p
      rw [hrow] at h
      cases vis with
      | true =>
        simp at h
        obtain ⟨hr, hit⟩ := h
        have hit' : DataChunkRefIter.mk c (i + 1) = it' := by
          cases it'
          simp at hit
          simp [hit]
        subst hit'
        exact ⟨rfl, Nat.lt_succ_self i, show i + 1 ≤ c.capacity by omega⟩
      | false =>
        simp only [Bool.false_eq_true, if_false] at h
        obtain ⟨hc1, hc2, hc3⟩ :=
          ih (c.capacity - (i + 1)) (by omega) ⟨c, i + 1⟩ r it' rfl h
        have hc2' : i + 1 < it'.idx := hc2
        have hc3' : it'.idx ≤ c.capacity := hc3
        exact ⟨hc1, show i < it'.idx by omega, show it'.idx ≤ c.capacity by omega⟩

/-- Collect every row the iterator yields, in order, until it returns
`none`. -/
def DataChunkRefIter.toList (it : DataChunkRefIter) : List Row :=
  match _h : it.next with
  | none => []
  | some (r, it') => r :: it'.toList
termination_by it.chunk.capacity - it.idx
decreasing_by
  rcases next_bounds _ _ _ _h with ⟨hc, hi, hcap⟩
  rw [hc] at *
  omega

theorem toList_eq_nil (it : DataChunkRefIter) (h : it.next = none) :
    it.toList = [] := by
  rw [DataChunkRefIter.toList]
  split
  · rfl
  · rename_i r it' h'
    rw [h] at h'
    exact absurd h' (by simp)

theorem toList_eq_cons (it : DataChunkRefIter) (r : Row) (it' : DataChunkRefIter)
    (h : it.next = some (r, it')) : it.toList = r :: it'.toList := by
  rw [DataChunkRefIter.toList]
  split
  · rename_i h'
    rw [h] at h'
    exact absurd h' (by simp)
  · rename_i r2 it2 h'
    rw [h] at h'
    simp only [Option.some.injEq, Prod.mk.injEq] at h'
    rw [h'.1, h'.2]

theorem toList_of_invisible (c : DataChunk) (i : Nat) (r : Row)
    (h : c.entries.get? i = some (r, false)) :
    (DataChunkRefIter.mk c i).toList = (DataChunkRefIter.mk c (i + 1)).toList := by
  cases hnext : (DataChunkRefIter.mk c (i + 1)).next with
  | none =>
    rw [toList_eq_nil _ (by rw [next_of_invisible c i r h, hnext]),
      toList_eq_nil _ hnext]
  | some p =>
    obtain ⟨r2, it2⟩ := p
    rw [toList_eq_cons _ _ _ (by rw [next_of_invisible c i r h, hnext]),
      toList_eq_cons _ _ _ hnext]

theorem toList_eq_filter (c : DataChunk) (i : Nat) :
    (DataChunkRefIter.mk c i).toList =
      ((c.entries.drop i).filter (fun e => e.2)).map Prod.fst := by
  suffices H : ∀ n (c : DataChunk) (i : Nat), c.capacity - i = n →
      (DataChunkRefIter.mk c i).toList =
        ((c.entries.drop i).filter (fun e => e.2)).map Prod.fst from H _ c i rfl
  intro n
  induction n using Nat.strong_induction_on with
  | _ n ih =>
  intro c i hn
  by_cases hcap : c.capacity ≤ i
  · have hnext := next_of_capacity_le c i hcap
    rw [toList_eq_nil _ hnext]
    rw [DataChunk.capacity] at hcap
    simp [List.drop_eq_nil_of_le hcap]
  · have hi : i < c.entries.length := by
      rw [DataChunk.capacity] at hcap
      omega
    have hget : c.entries.get? i = some (c.entries.get ⟨i, hi⟩) := List.get?_eq_get hi
    have hdrop : c.entries.drop i = c.entries.get ⟨i, hi⟩ :: c.entries.drop (i + 1) :=
      List.drop_eq_get_cons hi
    rcases he : c.entries.get ⟨i, hi⟩ with ⟨r, v⟩
    rw [he] at hget hdrop
    rw [hdrop]
    cases v with
    | true =>
      rw [toList_eq_cons _ _ _ (next_of_visible c i r hget)]
      rw [ih (c.capacity - (i + 1)) (by omega) c (i + 1) rfl]
      simp
    | false =>
      rw [toList_of_invisible c i r hget]
      rw [ih (c.capacity - (i + 1)) (by omega) c (i + 1) rfl]
      simp

/-- C9: the iterator returned by `DataChunk::rows` yields exactly the rows
whose visibility bit is set, in increasing row-index order (it skips invisible
rows), and `next` returns `none` once the chunk's capacity is exhausted. -/
theorem c9_rows_yields_visible_rows (c : DataChunk) :
    (c.rows).toList = (c.entries.filter (fun e => e.2)).map Prod.fst ∧
    (∀ i, c.capacity ≤ i → (DataChunkRefIter.mk c i).next = none) := by
  constructor
  · have := toList_eq_filter c 0
    rw [List.drop_zero] at this
    exact this
  · exact fun i hi => next_of_capacity_le c i hi

/-- Witness for C9 at a concrete chunk: two visible rows around an invisible
one are yielded in order, and the iterator is exhausted at the capacity. -/
theorem c9_rows_yields_visible_rows_witness :
    ((DataChunk.mk [(Row.mk [some (ScalarImpl.int32 1)], true),
        (Row.mk [some (ScalarImpl.int32 2)], false),
        (Row.mk [some (ScalarImpl.int32 3)], true)]).rows).toList =
      [Row.mk [some (ScalarImpl.int32 1)], Row.mk [some (ScalarImpl.int32 3)]] ∧
    ((DataChunk.mk [(Row.mk [some (ScalarImpl.int32 1)], true),
        (Row.mk [some (ScalarImpl.int32 2)], false),
        (Row.mk [some (ScalarImpl.int32 3)], true)]).capacity ≤ 3 ∧
      (DataChunkRefIter.mk (DataChunk.mk [(Row.mk [some (ScalarImpl.int32 1)], true),
        (Row.mk [some (ScalarImpl.int32 2)], false),
        (Row.mk [some (ScalarImpl.int32 3)], true)]) 3).next = none) := by
  refine ⟨?_, by decide, ?_⟩
  · rw [(c9_rows_yields_visible_rows _).1]
    rfl
  · exact (c9_rows_yields_visible_rows _).2 3 (by decide)

/-! ## The DDL controller (`src/meta/src/rpc/ddl_controller_v2.rs`)

The controller's workflows are embedded as pure functions.  Every call to an
external collaborator (catalog controller, stream manager, source manager,
fragment-graph builder) is resolved by an `Env` — an oracle giving the
outcome of each call — and recorded, in source order, in a trace of `Event`s.
A computation's outcome is `ok`, `err` (a returned `MetaResult` error), or
`panic` (an `unreachable!` / `unwrap()` / `unimplemented!` in the Rust). -/

/-- The meta error taxonomy (payloads abstracted to a code). -/
inductive MetaError where
  | graph (code : Nat)
  | catalog (code : Nat)
  | planning (code : Nat)
  | validation (code : Nat)
  | connector (code : Nat)
  | missingVersion
deriving DecidableEq

/-- Outcome of a workflow: a value, a returned error, or a Rust panic. -/
inductive PResult (α : Type) where
  | ok (a : α)
  | err (e : MetaError)
  | panic (msg : String)
deriving DecidableEq

/-- `PbSource` catalog object (only the id is relevant here). -/
structure PbSource where
  id : Nat
deriving DecidableEq

/-- `CreateType` of a streaming job. -/
inductive CreateType where
  | unspecified
  | foreground
  | background
deriving DecidableEq

/-- `TableJobType`. -/
inductive TableJobType where
  | general
  | sharedCdcSource
deriving DecidableEq

/-- `PbTable` catalog object: id, the mutable fragment ids, the optional
schema version used by replace, and the create type. -/
structure PbTable where
  id : Nat
  fragmentId : Nat
  dmlFragmentId : Nat
  version : Option Nat
  createType : CreateType
deriving DecidableEq

/-- `PbSink` catalog object. -/
structure PbSink where
  id : Nat
deriving DecidableEq

/-- `PbIndex` catalog object. -/
structure PbIndex where
  id : Nat
deriving DecidableEq

/-- `StreamingJob`: the tagged job variants of `crate::manager`. -/
inductive StreamingJob where
  | materializedView (table : PbTable)
  | sink (sink : PbSink) (targetTable : Option PbTable)
  | table (source : Option PbSource) (table : PbTable) (jobType : TableJobType)
  | index (index : PbIndex) (indexTable : PbTable)
  | source (source : PbSource)
deriving DecidableEq

/-- Modelled from the spec: `StreamingJob::id` (from `crate::manager`, not in
this snapshot) — the job id carried by the variant payload. -/
def StreamingJob.id : StreamingJob → Nat
  | .materializedView t => t.id
  | .sink s _ => s.id
  | .table _ t _ => t.id
  | .index ix _ => ix.id
  | .source s => s.id

/-- Modelled from the spec: `StreamingJob::create_type` — Foreground or
Background for table-backed jobs, Foreground for everything else. -/
def StreamingJob.createType : StreamingJob → CreateType
  | .materializedView t => t.createType
  | .table _ t _ => t.createType
  | _ => .foreground

/-- Modelled from the spec: `StreamingJob::set_table_fragment_id`. -/
def StreamingJob.setTableFragmentId (j : StreamingJob) (fid : Nat) : StreamingJob :=
  match j with
  | .materializedView t => .materializedView { t with fragmentId := fid }
  | .table src t jt => .table src { t with fragmentId := fid } jt
  | .index ix t => .index ix { t with fragmentId := fid }
  | j => j

/-- Modelled from the spec: `StreamingJob::set_dml_fragment_id`. -/
def StreamingJob.setDmlFragmentId (j : StreamingJob) (fid : Nat) : StreamingJob :=
  match j with
  | .table src t jt => .table src { t with dmlFragmentId := fid } jt
  | j => j

/-- The inner payload of a `Source` stream node (`source_inner`). -/
structure SourceInner where
  sourceId : Nat
deriving DecidableEq

/-- A stream-node body: a source-reading node (with its optional inner
payload) or any other operator. -/
inductive NodeBody where
  | source (inner : Option SourceInner)
  | other (tag : Nat)
deriving DecidableEq

mutual
/-- A stream-plan operator node: a body plus input nodes. -/
inductive StreamNode where
  | node (body : NodeBody) (inputs : StreamNodeList)
deriving DecidableEq

/-- The input list of a stream node. -/
inductive StreamNodeList where
  | nil
  | cons (head : StreamNode) (tail : StreamNodeList)
deriving DecidableEq
end

/-- A fragment of the protobuf fragment graph: its operator-node tree. -/
structure FragmentProto where
  root : StreamNode
deriving DecidableEq

/-- The protobuf `StreamFragmentGraph` handed in by the frontend: an optional
stream context (`get_ctx().unwrap()` panics when absent) and the fragments. -/
structure GraphProto where
  ctx : Option Nat
  fragments : List FragmentProto
deriving DecidableEq

mutual
/-- Modelled from the spec: the node visitor (`visit_fragment` of
`risingwave_common::util::stream_graph_visitor`) applied to every node body of
a tree; `none` models a panic inside the closure. -/
def mapNodeBodies (f : NodeBody → Option NodeBody) : StreamNode → Option StreamNode
  | .node b inputs =>
    match f b with
    | none => none
    | some b' =>
      match mapNodeListBodies f inputs with
      | none => none
      | some inputs' => some (.node b' inputs')

/-- Modelled from the spec: `mapNodeBodies` over an input list. -/
def mapNodeListBodies (f : NodeBody → Option NodeBody) :
    StreamNodeList → Option StreamNodeList
  | .nil => some .nil
  | .cons h t =>
    match mapNodeBodies f h with
    | none => none
    | some h' =>
      match mapNodeListBodies f t with
      | none => none
      | some t' => some (.cons h' t')
end

/-- Apply a fallible function to every element, failing if any application
fails (the option-valued element-wise loop used below). -/
def mapO {α β : Type} (f : α → Option β) : List α → Option (List β)
  | [] => some []
  | x :: xs =>
    match f x with
    | none => none
    | some y =>
      match mapO f xs with
      | none => none
      | some ys => some (y :: ys)

/-- The closure of the `StreamingJob::Source` arm of
`create_streaming_job_v2`: set `source_inner.source_id` on every source node;
`source_inner.as_mut().unwrap()` panics (modelled as `none`) when the inner
payload is absent. -/
def setSourceIdInBody (sid : Nat) : NodeBody → Option NodeBody
  | .source none => none
  | .source (some _) => some (.source (some ⟨sid⟩))
  | b => some b

/-- Propagate a source id into every source node of every fragment. -/
def propagateSourceId (sid : Nat) (g : GraphProto) : Option GraphProto :=
  match mapO (fun fr => (mapNodeBodies (setSourceIdInBody sid) fr.root).map FragmentProto.mk)
      g.fragments with
  | none => none
  | some frs => some ⟨g.ctx, frs⟩

/-- Modelled from the spec: `fill_table_stream_graph_info` (defined in
`ddl_controller.rs`, not in this snapshot) — for a `Table` job with an
attached connector source, inject the source's id into every source-consuming
node of the graph before any catalog id is known. -/
def fill_table_stream_graph_info (src : Option PbSource) (g : GraphProto) :
    Option GraphProto :=
  match src with
  | some s => propagateSourceId s.id g
  | none => some g

/-- The job-variant dispatch on connector ids right after pending-catalog
creation (`match &mut streaming_job` in `create_streaming_job_v2`). -/
def propagateJobSourceIds (job : StreamingJob) (g : GraphProto) : Option GraphProto :=
  match job with
  | .table src _ _ => fill_table_stream_graph_info src g
  | .source s => propagateSourceId s.id g
  | _ => some g

/-- An internal-table catalog skeleton, keyed by its (placeholder, then real)
id. -/
structure InternalTable where
  id : Nat
  payload : Nat
deriving DecidableEq

/-- The built `StreamFragmentGraph` of `crate::stream` (not in this snapshot;
modelled from the spec): designated fragment ids, the internal-table
skeletons (keyed by placeholder id), and the placeholder ids referenced by
the fragment nodes. -/
structure FragmentGraph where
  tableFragmentId : Nat
  dmlFragmentId : Nat
  internalTables : List InternalTable
  stateTableRefs : List Nat
deriving DecidableEq

/-- Look a placeholder id up in the id map returned by
`create_internal_table_catalog`. -/
def lookupId (m : List (Nat × Nat)) (p : Nat) : Option Nat :=
  (m.find? (fun q => q.1 == p)).map (fun q => q.2)

/-- Modelled from the spec: `StreamFragmentGraph::refill_internal_table_ids`
— rewrite every placeholder id (both the table keys and every node
reference) to its real id; a placeholder missing from the map is a
programming invariant violation (modelled as `none`, a panic). -/
def FragmentGraph.refill_internal_table_ids (g : FragmentGraph)
    (m : List (Nat × Nat)) : Option FragmentGraph :=
  match mapO (fun t => (lookupId m t.id).map (fun i => InternalTable.mk i t.payload))
      g.internalTables with
  | none => none
  | some tabs =>
    match mapO (lookupId m) g.stateTableRefs with
    | none => none
    | some refs => some ⟨g.tableFragmentId, g.dmlFragmentId, tabs, refs⟩

/-- Merge-update records are opaque here. -/
abbrev PbMergeUpdate := Nat

/-- A handle for the built `TableFragments` (opaque to the claims). -/
abbrev TableFragments := Nat

/-- Every externally observable action of the workflows, with the arguments
the claims talk about.  Traces list events in execution order. -/
inductive Event where
  | createJobCatalog (job : StreamingJob)
  | acquireCreatingPermit
  | acquireRescheduleLockShared
  | buildFragmentGraph (graph : GraphProto)
  | createInternalTableCatalog (jobId : Nat) (tables : List InternalTable)
  | refillInternalTableIds (idMap : List (Nat × Nat))
  | buildStreamJob (graph : FragmentGraph)
  | validateCdcTable
  | registerSource (sourceId : Nat)
  | validateSink (sinkId : Nat)
  | prepareStreamingJob (isReplace : Bool)
  | streamCreateStreamingJob
  | finishStreamingJob (jobId : Nat)
  | spawnBackgroundJob (jobId : Nat)
  | tryAbortCreatingStreamingJob (jobId : Nat)
  | unregisterSources (ids : List Nat)
  | logCreateFailed (jobId : Nat)
  | logAbortedJob (jobId : Nat)
  | logBackgroundCreateFailed (jobId : Nat)
  | logBackgroundFinishFailed (jobId : Nat)
  | createJobCatalogForReplace (tableVersion : Nat)
  | buildReplaceTable (dummyId : Nat)
  | streamReplaceTable
  | finishReplaceStreamingJob (dummyId : Nat)
  | tryAbortReplacingStreamingJob (dummyId : Nat)
  | logReplaceFailed (jobId : Nat)
  | logAbortReplaceFailed (jobId : Nat)
deriving DecidableEq

/-- The environment: the outcome of every external-collaborator call the
controller can make (the Catalog Controller, Stream Manager, Source Manager
and Fragment Graph Builder contracts of the spec). -/
structure Env where
  createJobCatalog : StreamingJob → Except MetaError StreamingJob
  buildFragmentGraph : GraphProto → StreamingJob → Except MetaError FragmentGraph
  createInternalTableCatalog : Nat → List InternalTable → Except MetaError (List (Nat × Nat))
  buildStreamJob : FragmentGraph → Except MetaError TableFragments
  validateCdcTable : Except MetaError Unit
  registerSource : Nat → Except MetaError Unit
  validateSink : Nat → Except MetaError Unit
  prepareStreamingJob : Bool → Except MetaError Unit
  streamCreateStreamingJob : Except MetaError Unit
  finishStreamingJob : Nat → Except MetaError Nat
  tryAbortCreatingStreamingJob : Nat → Except MetaError Bool
  createJobCatalogForReplace : Nat → Except MetaError Nat
  buildReplaceTable : Nat → Except MetaError (List PbMergeUpdate)
  streamReplaceTable : Except MetaError Unit
  finishReplaceStreamingJob : Nat → List PbMergeUpdate → Except MetaError Nat
  tryAbortReplacingStreamingJob : Nat → Except MetaError Unit

/-- Sequence two traced computations, short-circuiting on `err`/`panic`. -/
def andThen {α β : Type} (x : PResult α × List Event)
    (f : α → PResult β × List Event) : PResult β × List Event :=
  match x with
  | (.ok a, tr) => ((f a).1, tr ++ (f a).2)
  | (.err e, tr) => (.err e, tr)
  | (.panic m, tr) => (.panic m, tr)

/-- An external call: record its event and lift its outcome. -/
def callE {α : Type} (ev : Event) (r : Except MetaError α) : PResult α × List Event :=
  (match r with
   | .ok a => .ok a
   | .error e => .err e, [ev])

/-- An infallible action that only records an event. -/
def emitE (ev : Event) : PResult Unit × List Event :=
  (.ok (), [ev])

/-- `IGNORED_NOTIFICATION_VERSION` — modelled from the spec: the reserved
sentinel notification version meaning "do not wait", used for background
jobs. -/
def IGNORED_NOTIFICATION_VERSION : Nat := 0

/-- The detached unit of work spawned for a Background job
(`tokio::spawn(fut)` in `create_streaming_job_inner_v2`): activate via the
Stream Manager, logging a failure; only on success run the finishing commit,
logging (and discarding) its failure.  The task has no caller: it produces
only its trace. -/
def background_fut (env : Env) (jobId : Nat) : List Event :=
  match env.streamCreateStreamingJob with
  | .error _ => [.streamCreateStreamingJob, .logBackgroundCreateFailed jobId]
  | .ok _ =>
    match env.finishStreamingJob jobId with
    | .error _ => [.streamCreateStreamingJob, .finishStreamingJob jobId,
        .logBackgroundFinishFailed jobId]
    | .ok _ => [.streamCreateStreamingJob, .finishStreamingJob jobId]

/-- The job-type dispatch of `create_streaming_job_inner_v2` (step 6 of the
create workflow): CDC-table validation, source registration, sink validation;
a sink with a target table hits `unimplemented!` (a panic). -/
def validateStage (env : Env) (job : StreamingJob) : PResult Unit × List Event :=
  match job with
  | .table none _ .sharedCdcSource => callE .validateCdcTable env.validateCdcTable
  | .table (some src) _ _ => callE (.registerSource src.id) (env.registerSource src.id)
  | .sink _ (some _) => (.panic "support create sink into table in v2", [])
  | .sink sk none => callE (.validateSink sk.id) (env.validateSink sk.id)
  | .source src => callE (.registerSource src.id) (env.registerSource src.id)
  | _ => (.ok (), [])

/-- The final stage of `create_streaming_job_inner_v2`: for
Foreground/Unspecified jobs, activate then commit synchronously and return
the commit's version; for Background jobs, spawn the detached unit and return
the sentinel version immediately. -/
def finishStage (env : Env) (job : StreamingJob) : PResult Nat × List Event :=
  match job.createType with
  | .unspecified =>
      andThen (callE .streamCreateStreamingJob env.streamCreateStreamingJob) fun _ =>
        callE (.finishStreamingJob job.id) (env.finishStreamingJob job.id)
  | .foreground =>
      andThen (callE .streamCreateStreamingJob env.streamCreateStreamingJob) fun _ =>
        callE (.finishStreamingJob job.id) (env.finishStreamingJob job.id)
  | .background => (.ok IGNORED_NOTIFICATION_VERSION, [.spawnBackgroundJob job.id])

/-- The tail of `create_streaming_job_inner_v2` after the stream job has been
built: the job-type validation, the catalog prepare, and the finishing
stage. -/
def innerTail (env : Env) (job1 : StreamingJob) : PResult Nat × List Event :=
  andThen (validateStage env job1) fun _ =>
    andThen (callE (.prepareStreamingJob false) (env.prepareStreamingJob false)) fun _ =>
      finishStage env job1

/-- `create_streaming_job_inner_v2`: build the fragment graph, set the
fragment ids on the job, create the internal-table catalogs and refill their
real ids into the graph, build the stream job, run the job-type validation,
prepare the catalog rows, and run the finishing stage. -/
def create_streaming_job_inner_v2 (env : Env) (job : StreamingJob) (g : GraphProto) :
    PResult Nat × List Event :=
  andThen (callE (.buildFragmentGraph g) (env.buildFragmentGraph g job)) fun fg =>
    let job1 := (job.setTableFragmentId fg.tableFragmentId).setDmlFragmentId fg.dmlFragmentId
    andThen (callE (.createInternalTableCatalog job1.id fg.internalTables)
        (env.createInternalTableCatalog job1.id fg.internalTables)) fun idMap =>
      andThen (match fg.refill_internal_table_ids idMap with
               | none => (.panic "refill_internal_table_ids", [.refillInternalTableIds idMap])
               | some fg' => (.ok fg', [.refillInternalTableIds idMap])) fun fg' =>
        andThen (callE (.buildStreamJob fg') (env.buildStreamJob fg')) fun _ =>
          innerTail env job1

/-- `create_streaming_job_v2`: decode the context (`unwrap`), create the
pending job catalog (assigning ids), propagate connector source ids into the
graph, acquire the creating permit and the shared reschedule lock, and run
the inner workflow; on an inner error, log it, call try-abort (whose own
error is propagated by `?`), and if the abort actually removed a creating
job, unregister the job's connector source before returning the original
error. -/
def create_streaming_job_v2 (env : Env) (job : StreamingJob) (g : GraphProto) :
    PResult Nat × List Event :=
  match g.ctx with
  | none => (.panic "ctx", [])
  | some _ =>
    andThen (callE (.createJobCatalog job) (env.createJobCatalog job)) fun job1 =>
      match propagateJobSourceIds job1 g with
      | none => (.panic "source_inner", [])
      | some g1 =>
        andThen (emitE .acquireCreatingPermit) fun _ =>
          andThen (emitE .acquireRescheduleLockShared) fun _ =>
            match create_streaming_job_inner_v2 env job1 g1 with
            | (.ok version, tr) => (.ok version, tr)
            | (.panic m, tr) => (.panic m, tr)
            | (.err e, tr) =>
              match env.tryAbortCreatingStreamingJob job1.id with
              | .error e2 =>
                (.err e2, tr ++ [.logCreateFailed job1.id,
                  .tryAbortCreatingStreamingJob job1.id])
              | .ok aborted =>
                if aborted then
                  match job1 with
                  | .table (some src) _ _ =>
                    (.err e, tr ++ [.logCreateFailed job1.id,
                      .tryAbortCreatingStreamingJob job1.id, .logAbortedJob job1.id,
                      .unregisterSources [src.id]])
                  | .source src =>
                    (.err e, tr ++ [.logCreateFailed job1.id,
                      .tryAbortCreatingStreamingJob job1.id, .logAbortedJob job1.id,
                      .unregisterSources [src.id]])
                  | _ =>
                    (.err e, tr ++ [.logCreateFailed job1.id,
                      .tryAbortCreatingStreamingJob job1.id, .logAbortedJob job1.id])
                else
                  (.err e, tr ++ [.logCreateFailed job1.id,
                    .tryAbortCreatingStreamingJob job1.id])

/-- The `try` block of `replace_table_v2`: build the replacement
fragments/actors (collecting the merge updates), prepare the dummy job as a
replace, and perform the online table swap. -/
def replaceTryBlock (env : Env) (dummyId : Nat) :
    PResult (List PbMergeUpdate) × List Event :=
  andThen (callE (.buildReplaceTable dummyId) (env.buildReplaceTable dummyId)) fun mu =>
    andThen (callE (.prepareStreamingJob true) (env.prepareStreamingJob true)) fun _ =>
      andThen (callE .streamReplaceTable env.streamReplaceTable) fun _ =>
        (.ok mu, [])

/-- `replace_table_v2`: take the shared reschedule lock, decode the context
(`unwrap`), build the fragment graph, set the fragment ids, require a `Table`
job (`unreachable!` otherwise) with a schema version, create the dummy
catalog entry for the replacement, run the try block; on its success commit
via `finish_replace_streaming_job`, on its failure log, best-effort call
try-abort-replacing (its own failure only logged), and return the original
error. -/
def replace_table_v2 (env : Env) (job : StreamingJob) (g : GraphProto) :
    PResult Nat × List Event :=
  andThen (emitE .acquireRescheduleLockShared) fun _ =>
    match g.ctx with
    | none => (.panic "ctx", [])
    | some _ =>
      andThen (callE (.buildFragmentGraph g) (env.buildFragmentGraph g job)) fun fg =>
        let job1 := (job.setTableFragmentId fg.tableFragmentId).setDmlFragmentId
          fg.dmlFragmentId
        match job1 with
        | .table _ t _ =>
          match t.version with
          | none => (.err .missingVersion, [])
          | some ver =>
            andThen (callE (.createJobCatalogForReplace ver)
                (env.createJobCatalogForReplace ver)) fun dummyId =>
              match replaceTryBlock env dummyId with
              | (.ok mergeUpdates, tr) =>
                (match env.finishReplaceStreamingJob dummyId mergeUpdates with
                 | .ok version =>
                   (.ok version, tr ++ [.finishReplaceStreamingJob dummyId])
                 | .error e =>
                   (.err e, tr ++ [.finishReplaceStreamingJob dummyId]))
              | (.panic m, tr) => (.panic m, tr)
              | (.err e, tr) =>
                match env.tryAbortReplacingStreamingJob dummyId with
                | .ok _ =>
                  (.err e, tr ++ [.logReplaceFailed job.id,
                    .tryAbortReplacingStreamingJob dummyId])
                | .error _ =>
                  (.err e, tr ++ [.logReplaceFailed job.id,
                    .tryAbortReplacingStreamingJob dummyId,
                    .logAbortReplaceFailed job.id])
        | _ => (.panic "unexpected job", [])

/-! ## Helper predicates and facts about the workflow traces -/

def Event.isStreamCreate : Event → Bool
  | .streamCreateStreamingJob => true
  | _ => false

def Event.isFinishJob : Event → Bool
  | .finishStreamingJob _ => true
  | _ => false

def Event.isSpawn : Event → Bool
  | .spawnBackgroundJob _ => true
  | _ => false

def Event.isValidateSinkCall : Event → Bool
  | .validateSink _ => true
  | _ => false

def Event.isPrepareCall : Event → Bool
  | .prepareStreamingJob _ => true
  | _ => false

def Event.isRefillCall : Event → Bool
  | .refillInternalTableIds _ => true
  | _ => false

def Event.isCreateInternalCall : Event → Bool
  | .createInternalTableCatalog _ _ => true
  | _ => false

def Event.isTryAbortCreatingFor (jobId : Nat) : Event → Bool
  | .tryAbortCreatingStreamingJob j => j == jobId
  | _ => false

def Event.isUnregisterCall : Event → Bool
  | .unregisterSources _ => true
  | _ => false

def Event.isTryAbortReplacingFor (dummyId : Nat) : Event → Bool
  | .tryAbortReplacingStreamingJob d => d == dummyId
  | _ => false

def Event.isFinishReplaceCall : Event → Bool
  | .finishReplaceStreamingJob _ => true
  | _ => false

theorem setIds_preserve_id (job : StreamingJob) (a b : Nat) :
    ((job.setTableFragmentId a).setDmlFragmentId b).id = job.id := by
  cases job <;> rfl

theorem setIds_preserve_createType (job : StreamingJob) (a b : Nat) :
    ((job.setTableFragmentId a).setDmlFragmentId b).createType = job.createType := by
  cases job <;> rfl

theorem setIds_table (src : Option PbSource) (t : PbTable) (jt : TableJobType)
    (a b : Nat) :
    ((StreamingJob.table src t jt).setTableFragmentId a).setDmlFragmentId b =
      .table src { t with fragmentId := a, dmlFragmentId := b } jt := rfl

theorem validateStage_trace_shape (env : Env) (job : StreamingJob) :
    ∀ e ∈ (validateStage env job).2,
      Event.isStreamCreate e = false ∧ Event.isFinishJob e = false ∧
      Event.isSpawn e = false ∧ Event.isRefillCall e = false ∧
      Event.isCreateInternalCall e = false := by
  intro e he
  cases job with
  | table src t jt =>
    cases src with
    | none =>
      cases jt with
      | sharedCdcSource =>
        simp [validateStage, callE] at he
        subst he
        exact ⟨rfl, rfl, rfl, rfl, rfl⟩
      | general => simp [validateStage] at he
    | some s =>
      simp [validateStage, callE] at he
      subst he
      exact ⟨rfl, rfl, rfl, rfl, rfl⟩
  | sink sk target =>
    cases target with
    | none =>
      simp [validateStage, callE] at he
      subst he
      exact ⟨rfl, rfl, rfl, rfl, rfl⟩
    | some t => simp [validateStage] at he
  | source s =>
    simp [validateStage, callE] at he
    subst he
    exact ⟨rfl, rfl, rfl, rfl, rfl⟩
  | materializedView t => simp [validateStage] at he
  | index ix t => simp [validateStage] at he

theorem validateStage_countP_streamCreate (env : Env) (job : StreamingJob) :
    ((validateStage env job).2).countP Event.isStreamCreate = 0 :=
  List.countP_eq_zero.mpr fun e he => by
    simp [(validateStage_trace_shape env job e he).1]

theorem validateStage_countP_finishJob (env : Env) (job : StreamingJob) :
    ((validateStage env job).2).countP Event.isFinishJob = 0 :=
  List.countP_eq_zero.mpr fun e he => by
    simp [(validateStage_trace_shape env job e he).2.1]

theorem validateStage_countP_refill (env : Env) (job : StreamingJob) :
    ((validateStage env job).2).countP Event.isRefillCall = 0 :=
  List.countP_eq_zero.mpr fun e he => by
    simp [(validateStage_trace_shape env job e he).2.2.2.1]

theorem validateStage_countP_createInternal (env : Env) (job : StreamingJob) :
    ((validateStage env job).2).countP Event.isCreateInternalCall = 0 :=
  List.countP_eq_zero.mpr fun e he => by
    simp [(validateStage_trace_shape env job e he).2.2.2.2]

/-- C3: for a Background job, once every step up to and including the
catalog prepare has succeeded, `create_streaming_job_inner_v2` returns `Ok`
with the sentinel `IGNORED_NOTIFICATION_VERSION`, its synchronous trace ends
with spawning the detached unit, and it contains neither the Stream
Manager's `create_streaming_job` nor the finishing commit — they are not
awaited. -/
theorem c3_background_returns_sentinel (env : Env) (job : StreamingJob) (g : GraphProto)
    (fg : FragmentGraph) (idMap : List (Nat × Nat)) (fg2 : FragmentGraph)
    (tf : TableFragments) (jobS : StreamingJob)
    (hjs : jobS = (job.setTableFragmentId fg.tableFragmentId).setDmlFragmentId
      fg.dmlFragmentId)
    (hbg : job.createType = .background)
    (h1 : env.buildFragmentGraph g job = .ok fg)
    (h2 : env.createInternalTableCatalog jobS.id fg.internalTables = .ok idMap)
    (h3 : fg.refill_internal_table_ids idMap = some fg2)
    (h4 : env.buildStreamJob fg2 = .ok tf)
    (h5 : (validateStage env jobS).1 = .ok ())
    (h6 : env.prepareStreamingJob false = .ok ()) :
    create_streaming_job_inner_v2 env job g =
      (.ok IGNORED_NOTIFICATION_VERSION,
        ([.buildFragmentGraph g, .createInternalTableCatalog jobS.id fg.internalTables,
          .refillInternalTableIds idMap, .buildStreamJob fg2] ++ (validateStage env jobS).2 ++
         [.prepareStreamingJob false, .spawnBackgroundJob jobS.id])) ∧
    ((create_streaming_job_inner_v2 env job g).2.countP Event.isStreamCreate = 0 ∧
     (create_streaming_job_inner_v2 env job g).2.countP Event.isFinishJob = 0) := by
  subst hjs
  rcases hv : validateStage env
      ((job.setTableFragmentId fg.tableFragmentId).setDmlFragmentId fg.dmlFragmentId)
    with ⟨vres, vtr⟩
  rw [hv] at h5
  simp only at h5
  subst h5
  have hmain : create_streaming_job_inner_v2 env job g =
      (.ok IGNORED_NOTIFICATION_VERSION,
        ([.buildFragmentGraph g,
          .createInternalTableCatalog
            ((job.setTableFragmentId fg.tableFragmentId).setDmlFragmentId
              fg.dmlFragmentId).id fg.internalTables,
          .refillInternalTableIds idMap, .buildStreamJob fg2] ++ vtr ++
         [.prepareStreamingJob false,
          .spawnBackgroundJob
            ((job.setTableFragmentId fg.tableFragmentId).setDmlFragmentId
              fg.dmlFragmentId).id])) := by
    simp only [create_streaming_job_inner_v2, innerTail, h1, h2, h3, h4, hv, h6, andThen,
      callE, finishStage, setIds_preserve_createType, hbg]
    simp
  refine ⟨hmain, ?_, ?_⟩
  · rw [hmain]
    have hva := validateStage_countP_streamCreate env
      ((job.setTableFragmentId fg.tableFragmentId).setDmlFragmentId fg.dmlFragmentId)
    rw [hv] at hva
    simp only at hva
    simp [List.countP_append, List.countP_cons, Event.isStreamCreate, hva]
  · rw [hmain]
    have hva := validateStage_countP_finishJob env
      ((job.setTableFragmentId fg.tableFragmentId).setDmlFragmentId fg.dmlFragmentId)
    rw [hv] at hva
    simp only at hva
    simp [List.countP_append, List.countP_cons, Event.isFinishJob, hva]

/-- C4: in the detached Background unit of work, the finishing commit is
invoked iff the Stream Manager's `create_streaming_job` succeeded; each call
happens at most once (no retry); failures are logged with the job id; and the
unit produces no result a caller could observe (its type is only a trace). -/
theorem c4_background_fut_finish_iff_create_ok (env : Env) (jobId : Nat) :
    ((background_fut env jobId).countP Event.isFinishJob = 1 ↔
        env.streamCreateStreamingJob = .ok ()) ∧
    (background_fut env jobId).countP Event.isStreamCreate = 1 ∧
    (background_fut env jobId).countP Event.isFinishJob ≤ 1 ∧
    (∀ e, env.streamCreateStreamingJob = .error e →
        background_fut env jobId =
          [.streamCreateStreamingJob, .logBackgroundCreateFailed jobId]) ∧
    (∀ e, env.streamCreateStreamingJob = .ok () → env.finishStreamingJob jobId = .error e →
        background_fut env jobId =
          [.streamCreateStreamingJob, .finishStreamingJob jobId,
           .logBackgroundFinishFailed jobId]) := by
  cases hc : env.streamCreateStreamingJob with
  | error e =>
    simp [background_fut, hc, List.countP_cons, Event.isFinishJob, Event.isStreamCreate]
  | ok u =>
    cases u
    cases hf : env.finishStreamingJob jobId with
    | error e =>
      simp [background_fut, hc, hf, List.countP_cons, Event.isFinishJob,
        Event.isStreamCreate]
    | ok v =>
      simp [background_fut, hc, hf, List.countP_cons, Event.isFinishJob,
        Event.isStreamCreate]

/-- C5: for a Foreground (or Unspecified) job, whenever
`create_streaming_job_inner_v2` returns `Ok`, the returned notification
version is exactly the one `finish_streaming_job` returned, the Stream
Manager's `create_streaming_job` succeeded, and the trace ends with the
activation followed by the finishing commit; moreover, in every run the
finishing commit is only ever invoked after the activation succeeded. -/
theorem c5_foreground_version_from_finish (env : Env) (job : StreamingJob) (g : GraphProto)
    (hct : job.createType = .unspecified ∨ job.createType = .foreground) :
    (∀ v tr, create_streaming_job_inner_v2 env job g = (.ok v, tr) →
        env.streamCreateStreamingJob = .ok () ∧
        env.finishStreamingJob job.id = .ok v ∧
        ∃ pre, tr = pre ++ [.streamCreateStreamingJob, .finishStreamingJob job.id]) ∧
    (∀ res tr, create_streaming_job_inner_v2 env job g = (res, tr) →
        0 < tr.countP Event.isFinishJob → env.streamCreateStreamingJob = .ok ()) := by
  have hana : ∀ res tr, create_streaming_job_inner_v2 env job g = (res, tr) →
      ((∃ v, res = .ok v) ∨ 0 < tr.countP Event.isFinishJob) →
      env.streamCreateStreamingJob = .ok () ∧
      (∀ v, res = .ok v →
        env.finishStreamingJob job.id = .ok v ∧
        ∃ pre, tr = pre ++ [.streamCreateStreamingJob, .finishStreamingJob job.id]) := by
    intro res tr h hside
    rw [create_streaming_job_inner_v2] at h
    cases h1 : env.buildFragmentGraph g job with
    | error e =>
      rw [h1] at h
      simp only [andThen, callE] at h
      rw [Prod.mk.injEq] at h
      obtain ⟨hres, htr⟩ := h
      subst hres
      subst htr
      rcases hside with ⟨v, hv⟩ | hc
      · exact absurd hv (by simp)
      · simp [List.countP_cons, Event.isFinishJob] at hc
    | ok fg =>
      rw [h1] at h
      simp only [andThen, callE] at h
      rw [setIds_preserve_id] at h
      have hct1 : ((job.setTableFragmentId fg.tableFragmentId).setDmlFragmentId
          fg.dmlFragmentId).createType = job.createType := setIds_preserve_createType job _ _
      generalize hjob1 : (job.setTableFragmentId fg.tableFragmentId).setDmlFragmentId
        fg.dmlFragmentId = job1 at h hct1
      cases h2 : env.createInternalTableCatalog job.id fg.internalTables with
      | error e =>
        rw [h2] at h
        simp only [andThen, callE] at h
        rw [Prod.mk.injEq] at h
        obtain ⟨hres, htr⟩ := h
        subst hres
        subst htr
        rcases hside with ⟨v, hv⟩ | hc
        · exact absurd hv (by simp)
        · simp [List.countP_cons, Event.isFinishJob] at hc
      | ok idMap =>
        rw [h2] at h
        simp only [andThen, callE] at h
        cases h3 : fg.refill_internal_table_ids idMap with
        | none =>
          rw [h3] at h
          simp only [andThen] at h
          rw [Prod.mk.injEq] at h
          obtain ⟨hres, htr⟩ := h
          subst hres
          subst htr
          rcases hside with ⟨v, hv⟩ | hc
          · exact absurd hv (by simp)
          · simp [List.countP_cons, Event.isFinishJob] at hc
        | some fg2 =>
          rw [h3] at h
          simp only [andThen] at h
          cases h4 : env.buildStreamJob fg2 with
          | error e =>
            rw [h4] at h
            simp only [andThen, callE] at h
            rw [Prod.mk.injEq] at h
            obtain ⟨hres, htr⟩ := h
            subst hres
            subst htr
            rcases hside with ⟨v, hv⟩ | hc
            · exact absurd hv (by simp)
            · simp [List.countP_cons, Event.isFinishJob] at hc
          | ok tf =>
            rw [h4] at h
            simp only [andThen, callE, innerTail] at h
            rcases hv : validateStage env job1 with ⟨vres, vtr⟩
            have hvtr : ∀ e ∈ vtr, Event.isFinishJob e = false := by
              intro e he
              have := validateStage_trace_shape env job1 e (by rw [hv]; exact he)
              exact this.2.1
            have hvcount : vtr.countP Event.isFinishJob = 0 :=
              List.countP_eq_zero.mpr fun e he => by simp [hvtr e he]
            rw [hv] at h
            cases vres with
            | err e =>
              simp only [andThen] at h
              rw [Prod.mk.injEq] at h
              obtain ⟨hres, htr⟩ := h
              subst hres
              subst htr
              rcases hside with ⟨v, hv2⟩ | hc
              · exact absurd hv2 (by simp)
              · simp [List.countP_cons, List.countP_append, Event.isFinishJob, hvcount] at hc
            | panic m =>
              simp only [andThen] at h
              rw [Prod.mk.injEq] at h
              obtain ⟨hres, htr⟩ := h
              subst hres
              subst htr
              rcases hside with ⟨v, hv2⟩ | hc
              · exact absurd hv2 (by simp)
              · simp [List.countP_cons, List.countP_append, Event.isFinishJob, hvcount] at hc
            | ok u =>
              cases u
              simp only [andThen] at h
              cases h6 : env.prepareStreamingJob false with
              | error e =>
                rw [h6] at h
                simp only [andThen, callE] at h
                rw [Prod.mk.injEq] at h
                obtain ⟨hres, htr⟩ := h
                subst hres
                subst htr
                rcases hside with ⟨v, hv2⟩ | hc
                · exact absurd hv2 (by simp)
                · simp [List.countP_cons, List.countP_append, Event.isFinishJob,
                    hvcount] at hc
              | ok u2 =>
                cases u2
                rw [h6] at h
                simp only [andThen, callE, finishStage, hct1] at h
                have hid : job1.id = job.id := by
                  rw [← hjob1]
                  exact setIds_preserve_id job _ _
                rw [hid] at h
                rcases hct with hcteq | hcteq <;>
                  rw [hcteq] at h <;>
                  simp only [andThen, callE] at h <;>
                  (cases h7 : env.streamCreateStreamingJob with
                  | error e =>
                    rw [h7] at h
                    simp only [andThen] at h
                    rw [Prod.mk.injEq] at h
                    obtain ⟨hres, htr⟩ := h
                    subst hres
                    subst htr
                    rcases hside with ⟨v, hv2⟩ | hc
                    · exact absurd hv2 (by simp)
                    · simp [List.countP_cons, List.countP_append, Event.isFinishJob,
                        hvcount] at hc
                  | ok u3 =>
                    cases u3
                    rw [h7] at h
                    simp only [andThen] at h
                    cases h8 : env.finishStreamingJob job.id with
                    | error e =>
                      rw [h8] at h
                      simp only [andThen] at h
                      rw [Prod.mk.injEq] at h
                      obtain ⟨hres, htr⟩ := h
                      subst hres
                      subst htr
                      refine ⟨rfl, ?_⟩
                      intro v hv2
                      exact absurd hv2 (by simp)
                    | ok ver =>
                      rw [h8] at h
                      simp only [andThen] at h
                      rw [Prod.mk.injEq] at h
                      obtain ⟨hres, htr⟩ := h
                      subst hres
                      subst htr
                      refine ⟨rfl, ?_⟩
                      intro v hv2
                      have hvv : ver = v := by
                        have := hv2
                        simp at this
                        exact this
                      subst hvv
                      refine ⟨rfl, ?_⟩
                      refine ⟨[Event.buildFragmentGraph g,
                        Event.createInternalTableCatalog job.id fg.internalTables,
                        Event.refillInternalTableIds idMap, Event.buildStreamJob fg2] ++
                        vtr ++ [Event.prepareStreamingJob false], ?_⟩
                      simp)
  constructor
  · intro v tr h
    have := hana (.ok v) tr h (Or.inl ⟨v, rfl⟩)
    obtain ⟨hsc, hrest⟩ := this
    obtain ⟨hfin, hpre⟩ := hrest v rfl
    exact ⟨hsc, hfin, hpre⟩
  · intro res tr h hc
    exact (hana res tr h (Or.inr hc)).1

/-- C7: a `Sink` job with a target table hits the explicit
`unimplemented!("support create sink into table in v2")` — in no run does the
workflow reach `validate_sink`, `prepare_streaming_job` or the activation, it
never succeeds, and when every earlier step succeeds it surfaces exactly the
"not supported" panic. -/
theorem c7_sink_into_table_unsupported (env : Env) (sk : PbSink) (t : PbTable)
    (g : GraphProto) :
    (∀ res tr, create_streaming_job_inner_v2 env (.sink sk (some t)) g = (res, tr) →
        tr.countP Event.isValidateSinkCall = 0 ∧ tr.countP Event.isPrepareCall = 0 ∧
        tr.countP Event.isStreamCreate = 0 ∧ ∀ v, res ≠ .ok v) ∧
    (∀ fg idMap fg2 tf,
        env.buildFragmentGraph g (.sink sk (some t)) = .ok fg →
        env.createInternalTableCatalog sk.id fg.internalTables = .ok idMap →
        fg.refill_internal_table_ids idMap = some fg2 →
        env.buildStreamJob fg2 = .ok tf →
        create_streaming_job_inner_v2 env (.sink sk (some t)) g =
          (.panic "support create sink into table in v2",
           [.buildFragmentGraph g, .createInternalTableCatalog sk.id fg.internalTables,
            .refillInternalTableIds idMap, .buildStreamJob fg2])) := by
  constructor
  · intro res tr h
    rw [create_streaming_job_inner_v2] at h
    simp only [innerTail, StreamingJob.setTableFragmentId, StreamingJob.setDmlFragmentId,
      StreamingJob.id, validateStage] at h
    cases h1 : env.buildFragmentGraph g (.sink sk (some t)) with
    | error e =>
      rw [h1] at h
      simp only [andThen, callE] at h
      rw [Prod.mk.injEq] at h
      obtain ⟨hres, htr⟩ := h
      subst hres
      subst htr
      refine ⟨by simp [List.countP_cons, Event.isValidateSinkCall],
        by simp [List.countP_cons, Event.isPrepareCall],
        by simp [List.countP_cons, Event.isStreamCreate], fun v hv => by simp at hv⟩
    | ok fg =>
      rw [h1] at h
      simp only [andThen, callE] at h
      cases h2 : env.createInternalTableCatalog sk.id fg.internalTables with
      | error e =>
        rw [h2] at h
        simp only [andThen, callE] at h
        rw [Prod.mk.injEq] at h
        obtain ⟨hres, htr⟩ := h
        subst hres
        subst htr
        refine ⟨by simp [List.countP_cons, Event.isValidateSinkCall],
          by simp [List.countP_cons, Event.isPrepareCall],
          by simp [List.countP_cons, Event.isStreamCreate], fun v hv => by simp at hv⟩
      | ok idMap =>
        rw [h2] at h
        simp only [andThen, callE] at h
        cases h3 : fg.refill_internal_table_ids idMap with
        | none =>
          rw [h3] at h
          simp only [andThen] at h
          rw [Prod.mk.injEq] at h
          obtain ⟨hres, htr⟩ := h
          subst hres
          subst htr
          refine ⟨by simp [List.countP_cons, Event.isValidateSinkCall],
            by simp [List.countP_cons, Event.isPrepareCall],
            by simp [List.countP_cons, Event.isStreamCreate], fun v hv => by simp at hv⟩
        | some fg2 =>
          rw [h3] at h
          simp only [andThen] at h
          cases h4 : env.buildStreamJob fg2 with
          | error e =>
            rw [h4] at h
            simp only [andThen, callE] at h
            rw [Prod.mk.injEq] at h
            obtain ⟨hres, htr⟩ := h
            subst hres
            subst htr
            refine ⟨by simp [List.countP_cons, Event.isValidateSinkCall],
              by simp [List.countP_cons, Event.isPrepareCall],
              by simp [List.countP_cons, Event.isStreamCreate], fun v hv => by simp at hv⟩
          | ok tf =>
            rw [h4] at h
            simp only [andThen, callE] at h
            rw [Prod.mk.injEq] at h
            obtain ⟨hres, htr⟩ := h
            subst hres
            subst htr
            refine ⟨by simp [List.countP_cons, Event.isValidateSinkCall],
              by simp [List.countP_cons, Event.isPrepareCall],
              by simp [List.countP_cons, Event.isStreamCreate], fun v hv => by simp at hv⟩
  · intro fg idMap fg2 tf h1 h2 h3 h4
    simp only [create_streaming_job_inner_v2, innerTail, h1, h2, h3, h4, andThen, callE,
      StreamingJob.setTableFragmentId, StreamingJob.setDmlFragmentId, StreamingJob.id,
      validateStage]
    simp

theorem finishStage_trace_shape (env : Env) (job1 : StreamingJob) :
    ∀ e ∈ (finishStage env job1).2,
      Event.isRefillCall e = false ∧ Event.isCreateInternalCall e = false := by
  intro e he
  rw [finishStage] at he
  cases hct : job1.createType with
  | background =>
    rw [hct] at he
    simp at he
    subst he
    exact ⟨rfl, rfl⟩
  | unspecified =>
    rw [hct] at he
    cases h7 : env.streamCreateStreamingJob with
    | error e2 =>
      rw [h7] at he
      simp [andThen, callE] at he
      subst he
      exact ⟨rfl, rfl⟩
    | ok u =>
      cases u
      rw [h7] at he
      simp [andThen, callE] at he
      rcases he with rfl | rfl
      · exact ⟨rfl, rfl⟩
      · exact ⟨rfl, rfl⟩
  | foreground =>
    rw [hct] at he
    cases h7 : env.streamCreateStreamingJob with
    | error e2 =>
      rw [h7] at he
      simp [andThen, callE] at he
      subst he
      exact ⟨rfl, rfl⟩
    | ok u =>
      cases u
      rw [h7] at he
      simp [andThen, callE] at he
      rcases he with rfl | rfl
      · exact ⟨rfl, rfl⟩
      · exact ⟨rfl, rfl⟩

theorem innerTail_trace_shape (env : Env) (job1 : StreamingJob) :
    ∀ e ∈ (innerTail env job1).2,
      Event.isRefillCall e = false ∧ Event.isCreateInternalCall e = false := by
  intro e he
  rw [innerTail] at he
  rcases hv : validateStage env job1 with ⟨vres, vtr⟩
  have hmem : ∀ e2 ∈ vtr, Event.isRefillCall e2 = false ∧
      Event.isCreateInternalCall e2 = false := fun e2 he2 => by
    have := validateStage_trace_shape env job1 e2 (by rw [hv]; exact he2)
    exact ⟨this.2.2.2.1, this.2.2.2.2⟩
  rw [hv] at he
  cases vres with
  | err e2 =>
    simp only [andThen] at he
    exact hmem e he
  | panic m =>
    simp only [andThen] at he
    exact hmem e he
  | ok u =>
    cases u
    simp only [andThen, callE] at he
    cases h6 : env.prepareStreamingJob false with
    | error e2 =>
      rw [h6] at he
      simp at he
      rcases he with he2 | rfl
      · exact hmem e he2
      · exact ⟨rfl, rfl⟩
    | ok u2 =>
      cases u2
      rw [h6] at he
      simp at he
      rcases he with he2 | rfl | he2
      · exact hmem e he2
      · exact ⟨rfl, rfl⟩
      · exact finishStage_trace_shape env job1 e he2

theorem mapO_mem {α β : Type} (f : α → Option β) (xs : List α) (ys : List β)
    (h : mapO f xs = some ys) : ∀ y ∈ ys, ∃ x ∈ xs, f x = some y := by
  induction xs generalizing ys with
  | nil =>
    simp [mapO] at h
    subst h
    simp
  | cons x xs ih =>
    rw [mapO] at h
    cases hx : f x with
    | none => rw [hx] at h; simp at h
    | some y0 =>
      rw [hx] at h
      cases hxs : mapO f xs with
      | none => rw [hxs] at h; simp at h
      | some ys0 =>
        rw [hxs] at h
        simp at h
        subst h
        intro y hy
        rcases List.mem_cons.mp hy with rfl | hy2
        · exact ⟨x, List.mem_cons_self .., hx⟩
        · obtain ⟨x2, hx2, hfx2⟩ := ih ys0 hxs y hy2
          exact ⟨x2, List.mem_cons_of_mem _ hx2, hfx2⟩

theorem mapO_length {α β : Type} (f : α → Option β) (xs : List α) (ys : List β)
    (h : mapO f xs = some ys) : ys.length = xs.length := by
  induction xs generalizing ys with
  | nil =>
    simp [mapO] at h
    subst h
    rfl
  | cons x xs ih =>
    rw [mapO] at h
    cases hx : f x with
    | none => rw [hx] at h; simp at h
    | some y0 =>
      rw [hx] at h
      cases hxs : mapO f xs with
      | none => rw [hxs] at h; simp at h
      | some ys0 =>
        rw [hxs] at h
        simp at h
        subst h
        simp [ih ys0 hxs]

theorem lookupId_mem (m : List (Nat × Nat)) (p r : Nat) (h : lookupId m p = some r) :
    ∃ q ∈ m, q.1 = p ∧ q.2 = r := by
  unfold lookupId at h
  cases hf : m.find? (fun q => q.1 == p) with
  | none => rw [hf] at h; simp at h
  | some q =>
    rw [hf] at h
    simp at h
    refine ⟨q, List.mem_of_find?_eq_some hf, ?_, h⟩
    have := List.find?_some hf
    simpa using this

/-- The placeholder ids of a built graph before the refill: the keys of its
internal-table mapping. -/
def FragmentGraph.placeholderIds (g : FragmentGraph) : List Nat :=
  g.internalTables.map (fun t => t.id)

theorem refill_fresh (g : FragmentGraph) (m : List (Nat × Nat)) (g' : FragmentGraph)
    (h : g.refill_internal_table_ids m = some g')
    (hfresh : ∀ q ∈ m, q.2 ∉ g.placeholderIds) :
    (∀ r ∈ g'.stateTableRefs, r ∉ g.placeholderIds) ∧
    (∀ t ∈ g'.internalTables, t.id ∉ g.placeholderIds) ∧
    g'.internalTables.length = g.internalTables.length := by
  rw [FragmentGraph.refill_internal_table_ids] at h
  cases htab : mapO (fun t => (lookupId m t.id).map (fun i => InternalTable.mk i t.payload))
      g.internalTables with
  | none => rw [htab] at h; simp at h
  | some tabs =>
    rw [htab] at h
    cases href : mapO (lookupId m) g.stateTableRefs with
    | none => rw [href] at h; simp at h
    | some refs =>
      rw [href] at h
      simp at h
      subst h
      refine ⟨?_, ?_, ?_⟩
      · intro r hr
        obtain ⟨p, _, hp⟩ := mapO_mem _ _ _ href r hr
        obtain ⟨q, hq, _, hq2⟩ := lookupId_mem m p r hp
        exact hq2 ▸ hfresh q hq
      · intro t ht
        obtain ⟨t0, _, ht0⟩ := mapO_mem _ _ _ htab t ht
        cases hl : lookupId m t0.id with
        | none => rw [hl] at ht0; simp at ht0
        | some i =>
          rw [hl] at ht0
          simp at ht0
          obtain ⟨q, hq, _, hq2⟩ := lookupId_mem m t0.id i hl
          rw [← ht0]
          exact hq2 ▸ hfresh q hq
      · exact mapO_length _ _ _ htab

theorem refill_nodup (g : FragmentGraph) (m : List (Nat × Nat)) (g' : FragmentGraph)
    (h : g.refill_internal_table_ids m = some g')
    (hinj : ∀ q1 ∈ m, ∀ q2 ∈ m, q1.2 = q2.2 → q1.1 = q2.1)
    (hnodup : (g.internalTables.map (fun t => t.id)).Nodup) :
    (g'.internalTables.map (fun t => t.id)).Nodup := by
  rw [FragmentGraph.refill_internal_table_ids] at h
  cases htab : mapO (fun t => (lookupId m t.id).map (fun i => InternalTable.mk i t.payload))
      g.internalTables with
  | none => rw [htab] at h; simp at h
  | some tabs =>
    rw [htab] at h
    cases href : mapO (lookupId m) g.stateTableRefs with
    | none => rw [href] at h; simp at h
    | some refs =>
      rw [href] at h
      simp at h
      subst h
      clear href
      suffices H : ∀ (ts tabs : List InternalTable),
          mapO (fun t => (lookupId m t.id).map (fun i => InternalTable.mk i t.payload)) ts =
            some tabs →
          (ts.map (fun t => t.id)).Nodup → (tabs.map (fun t => t.id)).Nodup from
        H g.internalTables tabs htab hnodup
      intro ts
      induction ts with
      | nil =>
        intro tabs h hn
        simp [mapO] at h
        subst h
        simp
      | cons t ts ih =>
        intro tabs h hn
        rw [mapO] at h
        cases hx : (lookupId m t.id).map (fun i => InternalTable.mk i t.payload) with
        | none => rw [hx] at h; simp at h
        | some y0 =>
          rw [hx] at h
          cases hxs : mapO (fun t => (lookupId m t.id).map
              (fun i => InternalTable.mk i t.payload)) ts with
          | none => rw [hxs] at h; simp at h
          | some ys0 =>
            rw [hxs] at h
            simp at h
            subst h
            simp only [List.map_cons, List.nodup_cons] at hn ⊢
            obtain ⟨hnotin, hn2⟩ := hn
            refine ⟨?_, ih ys0 hxs hn2⟩
            cases hl : lookupId m t.id with
            | none => rw [hl] at hx; simp at hx
            | some i =>
              rw [hl] at hx
              simp at hx
              intro hmem
              rw [← hx] at hmem
              simp only [List.mem_map] at hmem
              obtain ⟨y', hy', hyid⟩ := hmem
              obtain ⟨t', ht', hft'⟩ := mapO_mem _ ts ys0 hxs y' hy'
              cases hl' : lookupId m t'.id with
              | none => rw [hl'] at hft'; simp at hft'
              | some i' =>
                rw [hl'] at hft'
                simp at hft'
                obtain ⟨q, hq, hq1, hq2⟩ := lookupId_mem m t.id i hl
                obtain ⟨q', hq', hq1', hq2'⟩ := lookupId_mem m t'.id i' hl'
                have hii : i' = y'.id := by rw [← hft']
                have hqq : q.2 = q'.2 := by rw [hq2, hq2', hii, hyid]
                have h11 : q.1 = q'.1 := hinj q hq q' hq' hqq
                have htid : t.id = t'.id := by rw [← hq1, ← hq1', h11]
                exact hnotin (htid ▸ List.mem_map.mpr ⟨t', ht', rfl⟩)

/-- C6: in the create workflow, `create_internal_table_catalog` is called with
exactly the built graph's internal tables, the refill of the returned id map
into the graph happens exactly once, positioned after the internal-table
catalog creation and before the graph is handed to `build_stream_job`; under
the catalog contract (fresh, injectively assigned real ids) the refilled
graph has no placeholder id left — neither among the node references nor the
table keys — and the assigned real ids are pairwise distinct and cover every
internal table. -/
theorem c6_refill_exactly_once (env : Env) (job : StreamingJob) (g : GraphProto)
    (fg : FragmentGraph) (idMap : List (Nat × Nat)) (fg2 : FragmentGraph)
    (jobS : StreamingJob)
    (hjs : jobS = (job.setTableFragmentId fg.tableFragmentId).setDmlFragmentId
      fg.dmlFragmentId)
    (h1 : env.buildFragmentGraph g job = .ok fg)
    (h2 : env.createInternalTableCatalog jobS.id fg.internalTables = .ok idMap)
    (h3 : fg.refill_internal_table_ids idMap = some fg2)
    (hfresh : ∀ q ∈ idMap, q.2 ∉ fg.placeholderIds)
    (hinj : ∀ q1 ∈ idMap, ∀ q2 ∈ idMap, q1.2 = q2.2 → q1.1 = q2.1)
    (hnodup : (fg.internalTables.map (fun t => t.id)).Nodup) :
    (∃ rest, (create_streaming_job_inner_v2 env job g).2 =
        [.buildFragmentGraph g, .createInternalTableCatalog jobS.id fg.internalTables,
         .refillInternalTableIds idMap, .buildStreamJob fg2] ++ rest ∧
        rest.countP Event.isRefillCall = 0 ∧ rest.countP Event.isCreateInternalCall = 0) ∧
    (create_streaming_job_inner_v2 env job g).2.countP Event.isRefillCall = 1 ∧
    (create_streaming_job_inner_v2 env job g).2.countP Event.isCreateInternalCall = 1 ∧
    (∀ r ∈ fg2.stateTableRefs, r ∉ fg.placeholderIds) ∧
    (∀ t ∈ fg2.internalTables, t.id ∉ fg.placeholderIds) ∧
    (fg2.internalTables.map (fun t => t.id)).Nodup ∧
    fg2.internalTables.length = fg.internalTables.length := by
  subst hjs
  have hcore : ∃ rest, (create_streaming_job_inner_v2 env job g).2 =
      [.buildFragmentGraph g,
       .createInternalTableCatalog
         ((job.setTableFragmentId fg.tableFragmentId).setDmlFragmentId fg.dmlFragmentId).id
         fg.internalTables,
       .refillInternalTableIds idMap, .buildStreamJob fg2] ++ rest ∧
      (∀ e ∈ rest, Event.isRefillCall e = false ∧ Event.isCreateInternalCall e = false) := by
    cases h4 : env.buildStreamJob fg2 with
    | error e =>
      refine ⟨[], ?_, by simp⟩
      simp only [create_streaming_job_inner_v2, h1, h2, h3, h4, andThen, callE]
      simp
    | ok tf =>
      refine ⟨(innerTail env ((job.setTableFragmentId fg.tableFragmentId).setDmlFragmentId
          fg.dmlFragmentId)).2, ?_, innerTail_trace_shape env _⟩
      simp only [create_streaming_job_inner_v2, h1, h2, h3, h4, andThen, callE]
      simp
  obtain ⟨rest, htr, hshape⟩ := hcore
  have hr0 : rest.countP Event.isRefillCall = 0 :=
    List.countP_eq_zero.mpr fun e he => by simp [(hshape e he).1]
  have hc0 : rest.countP Event.isCreateInternalCall = 0 :=
    List.countP_eq_zero.mpr fun e he => by simp [(hshape e he).2]
  obtain ⟨hfr, hft, hlen⟩ := refill_fresh fg idMap fg2 h3 hfresh
  refine ⟨⟨rest, htr, hr0, hc0⟩, ?_, ?_, hfr, hft,
    refill_nodup fg idMap fg2 h3 hinj hnodup, hlen⟩
  · rw [htr]
    simp [List.countP_append, List.countP_cons, Event.isRefillCall, hr0]
  · rw [htr]
    simp [List.countP_append, List.countP_cons, Event.isCreateInternalCall, hc0]

/-- A node body is "set" for a source id when every source-reading body
carries exactly that id in its inner payload. -/
def bodySourceSet (sid : Nat) : NodeBody → Bool
  | .source (some inner) => inner.sourceId == sid
  | .source none => false
  | .other _ => true

mutual
/-- Every source node in the tree carries the given source id. -/
def nodeSourcesSet (sid : Nat) : StreamNode → Bool
  | .node b inputs => bodySourceSet sid b && listSourcesSet sid inputs

/-- Every source node in the input list carries the given source id. -/
def listSourcesSet (sid : Nat) : StreamNodeList → Bool
  | .nil => true
  | .cons h t => nodeSourcesSet sid h && listSourcesSet sid t
end

mutual
theorem mapNode_sets (sid : Nat) : ∀ (n n' : StreamNode),
    mapNodeBodies (setSourceIdInBody sid) n = some n' → nodeSourcesSet sid n' = true
  | .node b inputs, n', h => by
    rw [mapNodeBodies] at h
    cases hb : setSourceIdInBody sid b with
    | none => rw [hb] at h; simp at h
    | some b' =>
      rw [hb] at h
      cases hl : mapNodeListBodies (setSourceIdInBody sid) inputs with
      | none => rw [hl] at h; simp at h
      | some inputs' =>
        rw [hl] at h
        simp at h
        subst h
        rw [nodeSourcesSet]
        have hbody : bodySourceSet sid b' = true := by
          cases b with
          | source inner =>
            cases inner with
            | none => simp [setSourceIdInBody] at hb
            | some i =>
              simp [setSourceIdInBody] at hb
              rw [← hb]
              simp [bodySourceSet]
          | other t =>
            simp [setSourceIdInBody] at hb
            rw [← hb]
            simp [bodySourceSet]
        rw [hbody, mapList_sets sid inputs inputs' hl]
        rfl

theorem mapList_sets (sid : Nat) : ∀ (l l' : StreamNodeList),
    mapNodeListBodies (setSourceIdInBody sid) l = some l' → listSourcesSet sid l' = true
  | .nil, l', h => by
    rw [mapNodeListBodies] at h
    simp at h
    subst h
    rfl
  | .cons hd tl, l', h => by
    rw [mapNodeListBodies] at h
    cases hh : mapNodeBodies (setSourceIdInBody sid) hd with
    | none => rw [hh] at h; simp at h
    | some hd' =>
      rw [hh] at h
      cases ht : mapNodeListBodies (setSourceIdInBody sid) tl with
      | none => rw [ht] at h; simp at h
      | some tl' =>
        rw [ht] at h
        simp at h
        subst h
        rw [listSourcesSet, mapNode_sets sid hd hd' hh, mapList_sets sid tl tl' ht]
        rfl
end

theorem propagate_sets (sid : Nat) (g g1 : GraphProto)
    (h : propagateSourceId sid g = some g1) :
    ∀ fr ∈ g1.fragments, nodeSourcesSet sid fr.root = true := by
  rw [propagateSourceId] at h
  cases hm : mapO (fun fr => (mapNodeBodies (setSourceIdInBody sid) fr.root).map
      FragmentProto.mk) g.fragments with
  | none => rw [hm] at h; simp at h
  | some frs =>
    rw [hm] at h
    simp at h
    subst h
    intro fr hfr
    obtain ⟨fr0, _, hf⟩ := mapO_mem _ _ _ hm fr hfr
    cases hmn : mapNodeBodies (setSourceIdInBody sid) fr0.root with
    | none => rw [hmn] at hf; simp at hf
    | some root2 =>
      rw [hmn] at hf
      simp at hf
      rw [← hf]
      exact mapNode_sets sid fr0.root root2 hmn

theorem andThen_trace_head {α β : Type} (ev : Event) (r : Except MetaError α)
    (f : α → PResult β × List Event) :
    ∃ rest, (andThen (callE ev r) f).2 = ev :: rest := by
  cases r with
  | error e => exact ⟨[], rfl⟩
  | ok a => exact ⟨(f a).2, rfl⟩

theorem inner_trace_head (env : Env) (job : StreamingJob) (g : GraphProto) :
    ∃ rest, (create_streaming_job_inner_v2 env job g).2 = .buildFragmentGraph g :: rest := by
  rw [create_streaming_job_inner_v2]
  exact andThen_trace_head _ _ _

theorem createV2_trace_decomp (env : Env) (job : StreamingJob) (g : GraphProto)
    (c : Nat) (job1 : StreamingJob) (g1 : GraphProto)
    (hctx : g.ctx = some c)
    (hcat : env.createJobCatalog job = .ok job1)
    (hprop : propagateJobSourceIds job1 g = some g1) :
    ∃ suffix, (create_streaming_job_v2 env job g).2 =
      [.createJobCatalog job, .acquireCreatingPermit, .acquireRescheduleLockShared] ++
      (create_streaming_job_inner_v2 env job1 g1).2 ++ suffix := by
  rcases hi : create_streaming_job_inner_v2 env job1 g1 with ⟨ires, itr⟩
  cases ires with
  | ok v =>
    exact ⟨[], by simp [create_streaming_job_v2, hctx, hcat, hprop, hi, andThen, callE, emitE]⟩
  | panic m =>
    exact ⟨[], by simp [create_streaming_job_v2, hctx, hcat, hprop, hi, andThen, callE, emitE]⟩
  | err e =>
    cases ha : env.tryAbortCreatingStreamingJob job1.id with
    | error e2 =>
      exact ⟨[.logCreateFailed job1.id, .tryAbortCreatingStreamingJob job1.id],
        by simp [create_streaming_job_v2, hctx, hcat, hprop, hi, ha, andThen, callE, emitE]⟩
    | ok aborted =>
      cases aborted with
      | false =>
        exact ⟨[.logCreateFailed job1.id, .tryAbortCreatingStreamingJob job1.id],
          by simp [create_streaming_job_v2, hctx, hcat, hprop, hi, ha, andThen, callE, emitE]⟩
      | true =>
        cases job1 with
        | table src t jt =>
          cases src with
          | some s =>
            refine ⟨[.logCreateFailed (StreamingJob.table (some s) t jt).id,
              .tryAbortCreatingStreamingJob (StreamingJob.table (some s) t jt).id,
              .logAbortedJob (StreamingJob.table (some s) t jt).id,
              .unregisterSources [s.id]], ?_⟩
            simp [create_streaming_job_v2, hctx, hcat, hprop, hi, ha, andThen, callE, emitE]
          | none =>
            refine ⟨[.logCreateFailed (StreamingJob.table none t jt).id,
              .tryAbortCreatingStreamingJob (StreamingJob.table none t jt).id,
              .logAbortedJob (StreamingJob.table none t jt).id], ?_⟩
            simp [create_streaming_job_v2, hctx, hcat, hprop, hi, ha, andThen, callE, emitE]
        | source s =>
          refine ⟨[.logCreateFailed (StreamingJob.source s).id,
            .tryAbortCreatingStreamingJob (StreamingJob.source s).id,
            .logAbortedJob (StreamingJob.source s).id, .unregisterSources [s.id]], ?_⟩
          simp [create_streaming_job_v2, hctx, hcat, hprop, hi, ha, andThen, callE, emitE]
        | materializedView t =>
          refine ⟨[.logCreateFailed (StreamingJob.materializedView t).id,
            .tryAbortCreatingStreamingJob (StreamingJob.materializedView t).id,
            .logAbortedJob (StreamingJob.materializedView t).id], ?_⟩
          simp [create_streaming_job_v2, hctx, hcat, hprop, hi, ha, andThen, callE, emitE]
        | sink sk tt =>
          refine ⟨[.logCreateFailed (StreamingJob.sink sk tt).id,
            .tryAbortCreatingStreamingJob (StreamingJob.sink sk tt).id,
            .logAbortedJob (StreamingJob.sink sk tt).id], ?_⟩
          simp [create_streaming_job_v2, hctx, hcat, hprop, hi, ha, andThen, callE, emitE]
        | index ix t =>
          refine ⟨[.logCreateFailed (StreamingJob.index ix t).id,
            .tryAbortCreatingStreamingJob (StreamingJob.index ix t).id,
            .logAbortedJob (StreamingJob.index ix t).id], ?_⟩
          simp [create_streaming_job_v2, hctx, hcat, hprop, hi, ha, andThen, callE, emitE]

/-- C8: for a standalone `Source` job, after the pending-catalog step has
assigned the source id, the propagation pass rewrites every source-reading
node body of every fragment to that id, and only then is the graph handed to
the fragment-graph builder (the `buildFragmentGraph` call receives the
rewritten graph, right after the permit and reschedule-lock acquisitions). -/
theorem c8_source_job_propagates_source_id (env : Env) (job : StreamingJob)
    (g : GraphProto) (c : Nat) (s1 : PbSource) (g1 : GraphProto)
    (hctx : g.ctx = some c)
    (hcat : env.createJobCatalog job = .ok (.source s1))
    (hprop : propagateSourceId s1.id g = some g1) :
    (∀ fr ∈ g1.fragments, nodeSourcesSet s1.id fr.root = true) ∧
    ∃ rest, (create_streaming_job_v2 env job g).2 =
      [.createJobCatalog job, .acquireCreatingPermit, .acquireRescheduleLockShared,
       .buildFragmentGraph g1] ++ rest := by
  refine ⟨propagate_sets s1.id g g1 hprop, ?_⟩
  obtain ⟨suffix, hdec⟩ := createV2_trace_decomp env job g c (.source s1) g1 hctx hcat
    (by rw [propagateJobSourceIds]; exact hprop)
  obtain ⟨rest2, hhead⟩ := inner_trace_head env (.source s1) g1
  refine ⟨rest2 ++ suffix, ?_⟩
  rw [hdec, hhead]
  simp

def Event.isAbortOrUnregister : Event → Bool
  | .tryAbortCreatingStreamingJob _ => true
  | .unregisterSources _ => true
  | _ => false

def Event.isUnregisterOf (sid : Nat) : Event → Bool
  | .unregisterSources ids => ids == [sid]
  | _ => false

/-- The connector source carried by a job, as matched by the unregister
compensation arm (`Table(Some(src), _, _) | Source(src)`). -/
def jobSourceId : StreamingJob → Option Nat
  | .table (some s) _ _ => some s.id
  | .source s => some s.id
  | _ => none

theorem validateStage_no_abort (env : Env) (job1 : StreamingJob) :
    ∀ e ∈ (validateStage env job1).2, Event.isAbortOrUnregister e = false := by
  intro e he
  cases job1 with
  | table src t jt =>
    cases src with
    | none =>
      cases jt with
      | sharedCdcSource =>
        simp [validateStage, callE] at he
        subst he
        rfl
      | general => simp [validateStage] at he
    | some s =>
      simp [validateStage, callE] at he
      subst he
      rfl
  | sink sk target =>
    cases target with
    | none =>
      simp [validateStage, callE] at he
      subst he
      rfl
    | some t => simp [validateStage] at he
  | source s =>
    simp [validateStage, callE] at he
    subst he
    rfl
  | materializedView t => simp [validateStage] at he
  | index ix t => simp [validateStage] at he

theorem finishStage_no_abort (env : Env) (job1 : StreamingJob) :
    ∀ e ∈ (finishStage env job1).2, Event.isAbortOrUnregister e = false := by
  intro e he
  rw [finishStage] at he
  cases hct : job1.createType with
  | background =>
    rw [hct] at he
    simp at he
    subst he
    rfl
  | unspecified =>
    rw [hct] at he
    cases h7 : env.streamCreateStreamingJob with
    | error e2 =>
      rw [h7] at he
      simp [andThen, callE] at he
      subst he
      rfl
    | ok u =>
      cases u
      rw [h7] at he
      simp [andThen, callE] at he
      rcases he with rfl | rfl
      · rfl
      · rfl
  | foreground =>
    rw [hct] at he
    cases h7 : env.streamCreateStreamingJob with
    | error e2 =>
      rw [h7] at he
      simp [andThen, callE] at he
      subst he
      rfl
    | ok u =>
      cases u
      rw [h7] at he
      simp [andThen, callE] at he
      rcases he with rfl | rfl
      · rfl
      · rfl

theorem innerTail_no_abort (env : Env) (job1 : StreamingJob) :
    ∀ e ∈ (innerTail env job1).2, Event.isAbortOrUnregister e = false := by
  intro e he
  rw [innerTail] at he
  rcases hv : validateStage env job1 with ⟨vres, vtr⟩
  have hmem : ∀ e2 ∈ vtr, Event.isAbortOrUnregister e2 = false := fun e2 he2 =>
    validateStage_no_abort env job1 e2 (by rw [hv]; exact he2)
  rw [hv] at he
  cases vres with
  | err e2 =>
    simp only [andThen] at he
    exact hmem e he
  | panic m =>
    simp only [andThen] at he
    exact hmem e he
  | ok u =>
    cases u
    simp only [andThen, callE] at he
    cases h6 : env.prepareStreamingJob false with
    | error e2 =>
      rw [h6] at he
      simp at he
      rcases he with he2 | rfl
      · exact hmem e he2
      · rfl
    | ok u2 =>
      cases u2
      rw [h6] at he
      simp at he
      rcases he with he2 | rfl | he2
      · exact hmem e he2
      · rfl
      · exact finishStage_no_abort env job1 e he2

theorem inner_no_abort (env : Env) (job : StreamingJob) (g : GraphProto) :
    ∀ e ∈ (create_streaming_job_inner_v2 env job g).2,
      Event.isAbortOrUnregister e = false := by
  intro e he
  rw [create_streaming_job_inner_v2] at he
  cases hb : env.buildFragmentGraph g job with
  | error e2 =>
    rw [hb] at he
    simp [andThen, callE] at he
    subst he
    rfl
  | ok fg =>
    rw [hb] at he
    simp only [andThen, callE] at he
    cases h2 : env.createInternalTableCatalog
        ((job.setTableFragmentId fg.tableFragmentId).setDmlFragmentId
          fg.dmlFragmentId).id fg.internalTables with
    | error e2 =>
      rw [h2] at he
      simp [andThen, callE] at he
      rcases he with rfl | rfl
      · rfl
      · rfl
    | ok idMap =>
      rw [h2] at he
      simp only [andThen, callE] at he
      cases h3 : fg.refill_internal_table_ids idMap with
      | none =>
        rw [h3] at he
        simp [andThen] at he
        rcases he with rfl | rfl | rfl
        · rfl
        · rfl
        · rfl
      | some fg2 =>
        rw [h3] at he
        simp only [andThen] at he
        cases h4 : env.buildStreamJob fg2 with
        | error e2 =>
          rw [h4] at he
          simp [andThen, callE] at he
          rcases he with rfl | rfl | rfl | rfl
          · rfl
          · rfl
          · rfl
          · rfl
        | ok tf =>
          rw [h4] at he
          simp [andThen, callE] at he
          rcases he with rfl | rfl | rfl | rfl | he2
          · rfl
          · rfl
          · rfl
          · rfl
          · exact innerTail_no_abort env _ e he2

theorem isTryAbortFor_of_no_abort (e : Event) (j : Nat)
    (h : Event.isAbortOrUnregister e = false) : Event.isTryAbortCreatingFor j e = false := by
  cases e <;> first | rfl | (simp [Event.isAbortOrUnregister] at h)

theorem isUnregister_of_no_abort (e : Event)
    (h : Event.isAbortOrUnregister e = false) : Event.isUnregisterCall e = false := by
  cases e <;> first | rfl | (simp [Event.isAbortOrUnregister] at h)

theorem isUnregisterOf_of_no_abort (e : Event) (sid : Nat)
    (h : Event.isAbortOrUnregister e = false) : Event.isUnregisterOf sid e = false := by
  cases e <;> first | rfl | (simp [Event.isAbortOrUnregister] at h)

/-- C1 (amended): when the inner create workflow fails after the pending
catalog row exists, the orchestrator calls `try_abort_creating_streaming_job`
exactly once for the job id; when that abort call itself succeeds the
original error is returned unchanged and, if the abort reports it actually
removed a creating job and the job carries a connector source, the source is
unregistered (and only then); but when the abort call itself fails, its error
is propagated to the caller in place of the original error (the `?` operator
in the source) and no compensation log or unregistration happens. -/
theorem c1_abort_once_error_priority (env : Env) (job : StreamingJob) (g : GraphProto)
    (c : Nat) (job1 : StreamingJob) (g1 : GraphProto) (e : MetaError) (itr : List Event)
    (hctx : g.ctx = some c)
    (hcat : env.createJobCatalog job = .ok job1)
    (hprop : propagateJobSourceIds job1 g = some g1)
    (hinner : create_streaming_job_inner_v2 env job1 g1 = (.err e, itr)) :
    ((create_streaming_job_v2 env job g).2.countP
        (Event.isTryAbortCreatingFor job1.id) = 1) ∧
    (∀ e2, env.tryAbortCreatingStreamingJob job1.id = .error e2 →
        (create_streaming_job_v2 env job g).1 = .err e2) ∧
    (∀ b, env.tryAbortCreatingStreamingJob job1.id = .ok b →
        (create_streaming_job_v2 env job g).1 = .err e ∧
        (b = true → ∀ sid, jobSourceId job1 = some sid →
            (create_streaming_job_v2 env job g).2.countP (Event.isUnregisterOf sid) = 1) ∧
        (b = true → jobSourceId job1 = none →
            (create_streaming_job_v2 env job g).2.countP Event.isUnregisterCall = 0) ∧
        (b = false →
            (create_streaming_job_v2 env job g).2.countP Event.isUnregisterCall = 0)) := by
  have hmemitr : ∀ e2 ∈ itr, Event.isAbortOrUnregister e2 = false := fun e2 he2 =>
    inner_no_abort env job1 g1 e2 (by rw [hinner]; exact he2)
  have hitr0a : itr.countP (Event.isTryAbortCreatingFor job1.id) = 0 :=
    List.countP_eq_zero.mpr fun e2 he2 => by
      simp [isTryAbortFor_of_no_abort e2 job1.id (hmemitr e2 he2)]
  have hitr0u : itr.countP Event.isUnregisterCall = 0 :=
    List.countP_eq_zero.mpr fun e2 he2 => by
      simp [isUnregister_of_no_abort e2 (hmemitr e2 he2)]
  have hitr0uo : ∀ sid, itr.countP (Event.isUnregisterOf sid) = 0 := fun sid =>
    List.countP_eq_zero.mpr fun e2 he2 => by
      simp [isUnregisterOf_of_no_abort e2 sid (hmemitr e2 he2)]
  cases ha : env.tryAbortCreatingStreamingJob job1.id with
  | error e2 =>
    have hout : create_streaming_job_v2 env job g =
        (.err e2, [Event.createJobCatalog job, .acquireCreatingPermit,
          .acquireRescheduleLockShared] ++ itr ++
          [.logCreateFailed job1.id, .tryAbortCreatingStreamingJob job1.id]) := by
      simp only [create_streaming_job_v2, hctx, hcat, hprop, hinner, ha, andThen, callE,
        emitE]
      simp
    refine ⟨?_, ?_, ?_⟩
    · rw [hout]
      simp [List.countP_append, List.countP_cons, Event.isTryAbortCreatingFor, hitr0a]
    · intro e3 ha3
      simp at ha3
      subst ha3
      rw [hout]
    · intro b hb
      simp at hb
  | ok b =>
    cases b with
    | false =>
      have hout : create_streaming_job_v2 env job g =
          (.err e, [Event.createJobCatalog job, .acquireCreatingPermit,
            .acquireRescheduleLockShared] ++ itr ++
            [.logCreateFailed job1.id, .tryAbortCreatingStreamingJob job1.id]) := by
        simp only [create_streaming_job_v2, hctx, hcat, hprop, hinner, ha, andThen, callE,
          emitE]
        simp
      refine ⟨?_, ?_, ?_⟩
      · rw [hout]
        simp [List.countP_append, List.countP_cons, Event.isTryAbortCreatingFor, hitr0a]
      · intro e3 ha3
        simp at ha3
      · intro b2 hb2
        simp at hb2
        subst hb2
        refine ⟨by rw [hout], by simp, by simp, fun _ => ?_⟩
        rw [hout]
        simp [List.countP_append, List.countP_cons, Event.isUnregisterCall, hitr0u]
    | true =>
      have hsplit : (∃ sid, jobSourceId job1 = some sid ∧
          create_streaming_job_v2 env job g =
            (.err e, [Event.createJobCatalog job, .acquireCreatingPermit,
              .acquireRescheduleLockShared] ++ itr ++
              [.logCreateFailed job1.id, .tryAbortCreatingStreamingJob job1.id,
               .logAbortedJob job1.id, .unregisterSources [sid]])) ∨
          (jobSourceId job1 = none ∧
          create_streaming_job_v2 env job g =
            (.err e, [Event.createJobCatalog job, .acquireCreatingPermit,
              .acquireRescheduleLockShared] ++ itr ++
              [.logCreateFailed job1.id, .tryAbortCreatingStreamingJob job1.id,
               .logAbortedJob job1.id])) := by
        cases job1 with
        | table src t jt =>
          cases src with
          | some s =>
            refine Or.inl ⟨s.id, rfl, ?_⟩
            simp only [create_streaming_job_v2, hctx, hcat, hprop, hinner, ha, andThen,
              callE, emitE]
            simp
          | none =>
            refine Or.inr ⟨rfl, ?_⟩
            simp only [create_streaming_job_v2, hctx, hcat, hprop, hinner, ha, andThen,
              callE, emitE]
            simp
        | source s =>
          refine Or.inl ⟨s.id, rfl, ?_⟩
          simp only [create_streaming_job_v2, hctx, hcat, hprop, hinner, ha, andThen,
            callE, emitE]
          simp
        | materializedView t =>
          refine Or.inr ⟨rfl, ?_⟩
          simp only [create_streaming_job_v2, hctx, hcat, hprop, hinner, ha, andThen,
            callE, emitE]
          simp
        | sink sk tt =>
          refine Or.inr ⟨rfl, ?_⟩
          simp only [create_streaming_job_v2, hctx, hcat, hprop, hinner, ha, andThen,
            callE, emitE]
          simp
        | index ix t =>
          refine Or.inr ⟨rfl, ?_⟩
          simp only [create_streaming_job_v2, hctx, hcat, hprop, hinner, ha, andThen,
            callE, emitE]
          simp
      rcases hsplit with ⟨sid, hsid, hout⟩ | ⟨hsid, hout⟩
      · refine ⟨?_, ?_, ?_⟩
        · rw [hout]
          simp [List.countP_append, List.countP_cons, Event.isTryAbortCreatingFor, hitr0a]
        · intro e3 ha3
          simp at ha3
        · intro b2 hb2
          simp at hb2
          subst hb2
          refine ⟨by rw [hout], ?_, ?_, by simp⟩
          · intro _ sid2 hsid2
            rw [hsid] at hsid2
            simp at hsid2
            subst hsid2
            rw [hout]
            simp [List.countP_append, List.countP_cons, Event.isUnregisterOf, hitr0uo]
          · intro _ hnone
            rw [hsid] at hnone
            simp at hnone
      · refine ⟨?_, ?_, ?_⟩
        · rw [hout]
          simp [List.countP_append, List.countP_cons, Event.isTryAbortCreatingFor, hitr0a]
        · intro e3 ha3
          simp at ha3
        · intro b2 hb2
          simp at hb2
          subst hb2
          refine ⟨by rw [hout], ?_, ?_, by simp⟩
          · intro _ sid2 hsid2
            rw [hsid] at hsid2
            simp at hsid2
          · intro _ _
            rw [hout]
            simp [List.countP_append, List.countP_cons, Event.isUnregisterCall, hitr0u]

def Event.isLogAbortReplaceFail : Event → Bool
  | .logAbortReplaceFailed _ => true
  | _ => false

def Event.isReplaceAbortish : Event → Bool
  | .tryAbortReplacingStreamingJob _ => true
  | .finishReplaceStreamingJob _ => true
  | .logAbortReplaceFailed _ => true
  | _ => false

theorem replaceTryBlock_no_abortish (env : Env) (d : Nat) :
    ∀ e ∈ (replaceTryBlock env d).2, Event.isReplaceAbortish e = false := by
  intro e he
  rw [replaceTryBlock] at he
  cases hb : env.buildReplaceTable d with
  | error e2 =>
    rw [hb] at he
    simp [andThen, callE] at he
    subst he
    rfl
  | ok mu =>
    rw [hb] at he
    simp only [andThen, callE] at he
    cases hp : env.prepareStreamingJob true with
    | error e2 =>
      rw [hp] at he
      simp [andThen, callE] at he
      rcases he with rfl | rfl
      · rfl
      · rfl
    | ok u =>
      cases u
      rw [hp] at he
      simp only [andThen, callE] at he
      cases hs : env.streamReplaceTable with
      | error e2 =>
        rw [hs] at he
        simp [andThen] at he
        rcases he with rfl | rfl | rfl
        · rfl
        · rfl
        · rfl
      | ok u2 =>
        cases u2
        rw [hs] at he
        simp [andThen] at he
        rcases he with rfl | rfl | rfl
        · rfl
        · rfl
        · rfl

theorem isTryAbortReplacingFor_of_no_abortish (e : Event) (j : Nat)
    (h : Event.isReplaceAbortish e = false) : Event.isTryAbortReplacingFor j e = false := by
  cases e <;> first | rfl | (simp [Event.isReplaceAbortish] at h)

theorem isFinishReplace_of_no_abortish (e : Event)
    (h : Event.isReplaceAbortish e = false) : Event.isFinishReplaceCall e = false := by
  cases e <;> first | rfl | (simp [Event.isReplaceAbortish] at h)

theorem isLogAbortReplaceFail_of_no_abortish (e : Event)
    (h : Event.isReplaceAbortish e = false) : Event.isLogAbortReplaceFail e = false := by
  cases e <;> first | rfl | (simp [Event.isReplaceAbortish] at h)

/-- C2: for every failure of the replace workflow after the dummy catalog
entry has been created — i.e. any error of the try block spanning the
replacement build, the prepare, and the `replace_table` activation —
`replace_table_v2` calls `try_abort_replacing_streaming_job` exactly once
with the dummy id, returns the original error to the caller (also when the
abort call itself fails, in which case the abort failure is logged), and
never calls `finish_replace_streaming_job`. -/
theorem c2_replace_abort_preserves_error (env : Env) (job : StreamingJob) (g : GraphProto)
    (c : Nat) (fg : FragmentGraph) (src : Option PbSource) (t : PbTable)
    (jt : TableJobType) (ver dummyId : Nat) (e : MetaError) (rtr : List Event)
    (hctx : g.ctx = some c)
    (hjob : job = .table src t jt)
    (hb : env.buildFragmentGraph g job = .ok fg)
    (hver : t.version = some ver)
    (hdummy : env.createJobCatalogForReplace ver = .ok dummyId)
    (hfail : replaceTryBlock env dummyId = (.err e, rtr)) :
    (replace_table_v2 env job g).1 = .err e ∧
    (replace_table_v2 env job g).2.countP (Event.isTryAbortReplacingFor dummyId) = 1 ∧
    (replace_table_v2 env job g).2.countP Event.isFinishReplaceCall = 0 ∧
    (∀ e2, env.tryAbortReplacingStreamingJob dummyId = .error e2 →
        (replace_table_v2 env job g).2.countP Event.isLogAbortReplaceFail = 1) := by
  subst hjob
  have hmem : ∀ e2 ∈ rtr, Event.isReplaceAbortish e2 = false := fun e2 he2 =>
    replaceTryBlock_no_abortish env dummyId e2 (by rw [hfail]; exact he2)
  have hr0a : rtr.countP (Event.isTryAbortReplacingFor dummyId) = 0 :=
    List.countP_eq_zero.mpr fun e2 he2 => by
      simp [isTryAbortReplacingFor_of_no_abortish e2 dummyId (hmem e2 he2)]
  have hr0f : rtr.countP Event.isFinishReplaceCall = 0 :=
    List.countP_eq_zero.mpr fun e2 he2 => by
      simp [isFinishReplace_of_no_abortish e2 (hmem e2 he2)]
  have hr0l : rtr.countP Event.isLogAbortReplaceFail = 0 :=
    List.countP_eq_zero.mpr fun e2 he2 => by
      simp [isLogAbortReplaceFail_of_no_abortish e2 (hmem e2 he2)]
  cases ha : env.tryAbortReplacingStreamingJob dummyId with
  | ok u =>
    have hout : replace_table_v2 env (.table src t jt) g =
        (.err e, [Event.acquireRescheduleLockShared, .buildFragmentGraph g,
          .createJobCatalogForReplace ver] ++ rtr ++
          [.logReplaceFailed (StreamingJob.table src t jt).id,
           .tryAbortReplacingStreamingJob dummyId]) := by
      simp only [replace_table_v2, hctx, hb, andThen, callE, emitE, setIds_table]
      simp only [hver, hdummy, hfail, ha]
      simp
    refine ⟨by rw [hout], ?_, ?_, ?_⟩
    · rw [hout]
      simp [List.countP_append, List.countP_cons, Event.isTryAbortReplacingFor, hr0a]
    · rw [hout]
      simp [List.countP_append, List.countP_cons, Event.isFinishReplaceCall, hr0f]
    · intro e2 ha2
      simp at ha2
  | error e2 =>
    have hout : replace_table_v2 env (.table src t jt) g =
        (.err e, [Event.acquireRescheduleLockShared, .buildFragmentGraph g,
          .createJobCatalogForReplace ver] ++ rtr ++
          [.logReplaceFailed (StreamingJob.table src t jt).id,
           .tryAbortReplacingStreamingJob dummyId,
           .logAbortReplaceFailed (StreamingJob.table src t jt).id]) := by
      simp only [replace_table_v2, hctx, hb, andThen, callE, emitE, setIds_table]
      simp only [hver, hdummy, hfail, ha]
      simp
    refine ⟨by rw [hout], ?_, ?_, ?_⟩
    · rw [hout]
      simp [List.countP_append, List.countP_cons, Event.isTryAbortReplacingFor, hr0a]
    · rw [hout]
      simp [List.countP_append, List.countP_cons, Event.isFinishReplaceCall, hr0f]
    · intro e3 _
      rw [hout]
      simp [List.countP_append, List.countP_cons, Event.isLogAbortReplaceFail, hr0l]

/-! ## Concrete environments and inputs (witnesses and counterexample) -/

/-- A built graph with one internal table under placeholder id 10. -/
def fgW : FragmentGraph := ⟨1, 2, [⟨10, 0⟩], [10]⟩

/-- The id map the catalog returns for `fgW`: placeholder 10 becomes 100. -/
def idMapW : List (Nat × Nat) := [(10, 100)]

/-- `fgW` after the refill. -/
def fgW2 : FragmentGraph := ⟨1, 2, [⟨100, 0⟩], [100]⟩

/-- An environment in which every collaborator call succeeds. -/
def envOk : Env := {
  createJobCatalog := fun j => .ok j
  buildFragmentGraph := fun _ _ => .ok fgW
  createInternalTableCatalog := fun _ _ => .ok idMapW
  buildStreamJob := fun _ => .ok 0
  validateCdcTable := .ok ()
  registerSource := fun _ => .ok ()
  validateSink := fun _ => .ok ()
  prepareStreamingJob := fun _ => .ok ()
  streamCreateStreamingJob := .ok ()
  finishStreamingJob := fun _ => .ok 7
  tryAbortCreatingStreamingJob := fun _ => .ok true
  createJobCatalogForReplace := fun _ => .ok 55
  buildReplaceTable := fun _ => .ok [3]
  streamReplaceTable := .ok ()
  finishReplaceStreamingJob := fun _ _ => .ok 8
  tryAbortReplacingStreamingJob := fun _ => .ok () }

/-- `envOk` with a failing fragment-graph build (so the inner create workflow
fails) and a failing abort call. -/
def envAbortErr : Env :=
  { envOk with
    buildFragmentGraph := fun _ _ => .error (.graph 1)
    tryAbortCreatingStreamingJob := fun _ => .error (.catalog 2) }

/-- `envOk` with a failing fragment-graph build (abort succeeds). -/
def envBuildErr : Env :=
  { envOk with buildFragmentGraph := fun _ _ => .error (.graph 1) }

/-- `envOk` with a failing Stream Manager activation. -/
def envCreateErr : Env :=
  { envOk with streamCreateStreamingJob := .error (.planning 1) }

/-- `envOk` with a failing replacement build and a failing replace-abort. -/
def envReplaceErr : Env :=
  { envOk with
    buildReplaceTable := fun _ => .error (.planning 2)
    tryAbortReplacingStreamingJob := fun _ => .error (.catalog 3) }

/-- A background `Table` job (no attached source). -/
def jobBg : StreamingJob := .table none ⟨9, 0, 0, some 3, .background⟩ .general

/-- `jobBg` after the fragment ids of `fgW` have been set. -/
def jobBgS : StreamingJob := .table none ⟨9, 1, 2, some 3, .background⟩ .general

/-- A foreground `Table` job. -/
def jobFg : StreamingJob := .table none ⟨9, 0, 0, some 3, .foreground⟩ .general

/-- `jobFg` after the fragment ids of `fgW` have been set. -/
def jobFgS : StreamingJob := .table none ⟨9, 1, 2, some 3, .foreground⟩ .general

/-- A standalone `Source` job with source id 5. -/
def jobSrc : StreamingJob := .source ⟨5⟩

/-- A request graph with one fragment holding a single source node (inner id
not yet assigned). -/
def gW : GraphProto := ⟨some 0, [⟨.node (.source (some ⟨0⟩)) .nil⟩]⟩

/-- `gW` with source id 5 propagated into the source node. -/
def gW1 : GraphProto := ⟨some 0, [⟨.node (.source (some ⟨5⟩)) .nil⟩]⟩

/-- C1, counterexample to the claim as stated: with a failing inner workflow
(original error `graph 1`) and a failing abort call (error `catalog 2`),
`create_streaming_job_v2` returns the abort call's error — the original error
is replaced, contradicting "a failure of the abort call itself is logged and
never replaces the original error". -/
theorem c1_claim_counterexample :
    (create_streaming_job_inner_v2 envAbortErr jobSrc gW1).1 = .err (.graph 1) ∧
    (create_streaming_job_v2 envAbortErr jobSrc gW).1 = .err (.catalog 2) ∧
    MetaError.catalog 2 ≠ MetaError.graph 1 :=
  ⟨rfl, rfl, by decide⟩

/-- Witness for C1 at a concrete environment: the inner workflow fails with
`graph 1`, the abort succeeds reporting an actual abort, and the source job's
source id 5 is unregistered. -/
theorem c1_abort_once_error_priority_witness :
    gW.ctx = some 0 ∧
    envBuildErr.createJobCatalog jobSrc = .ok jobSrc ∧
    propagateJobSourceIds jobSrc gW = some gW1 ∧
    create_streaming_job_inner_v2 envBuildErr jobSrc gW1 =
      (.err (.graph 1), [.buildFragmentGraph gW1]) ∧
    (((create_streaming_job_v2 envBuildErr jobSrc gW).2.countP
        (Event.isTryAbortCreatingFor jobSrc.id) = 1) ∧
     (∀ e2, envBuildErr.tryAbortCreatingStreamingJob jobSrc.id = .error e2 →
        (create_streaming_job_v2 envBuildErr jobSrc gW).1 = .err e2) ∧
     (∀ b, envBuildErr.tryAbortCreatingStreamingJob jobSrc.id = .ok b →
        (create_streaming_job_v2 envBuildErr jobSrc gW).1 = .err (.graph 1) ∧
        (b = true → ∀ sid, jobSourceId jobSrc = some sid →
            (create_streaming_job_v2 envBuildErr jobSrc gW).2.countP
              (Event.isUnregisterOf sid) = 1) ∧
        (b = true → jobSourceId jobSrc = none →
            (create_streaming_job_v2 envBuildErr jobSrc gW).2.countP
              Event.isUnregisterCall = 0) ∧
        (b = false →
            (create_streaming_job_v2 envBuildErr jobSrc gW).2.countP
              Event.isUnregisterCall = 0))) :=
  ⟨rfl, rfl, rfl, rfl,
   c1_abort_once_error_priority envBuildErr jobSrc gW 0 jobSrc gW1 (.graph 1)
     [.buildFragmentGraph gW1] rfl rfl rfl rfl⟩

/-- Witness for C2 at a concrete environment: the replacement build fails
with `planning 2` and the replace-abort itself fails, yet the original error
is returned and the abort failure is logged. -/
theorem c2_replace_abort_preserves_error_witness :
    gW.ctx = some 0 ∧
    jobFg = StreamingJob.table none ⟨9, 0, 0, some 3, .foreground⟩ .general ∧
    envReplaceErr.buildFragmentGraph gW jobFg = .ok fgW ∧
    (PbTable.mk 9 0 0 (some 3) .foreground).version = some 3 ∧
    envReplaceErr.createJobCatalogForReplace 3 = .ok 55 ∧
    replaceTryBlock envReplaceErr 55 = (.err (.planning 2), [.buildReplaceTable 55]) ∧
    ((replace_table_v2 envReplaceErr jobFg gW).1 = .err (.planning 2) ∧
     (replace_table_v2 envReplaceErr jobFg gW).2.countP
       (Event.isTryAbortReplacingFor 55) = 1 ∧
     (replace_table_v2 envReplaceErr jobFg gW).2.countP Event.isFinishReplaceCall = 0 ∧
     (∀ e2, envReplaceErr.tryAbortReplacingStreamingJob 55 = .error e2 →
        (replace_table_v2 envReplaceErr jobFg gW).2.countP
          Event.isLogAbortReplaceFail = 1)) :=
  ⟨rfl, rfl, rfl, rfl, rfl, rfl,
   c2_replace_abort_preserves_error envReplaceErr jobFg gW 0 fgW none
     ⟨9, 0, 0, some 3, .foreground⟩ .general 3 55 (.planning 2)
     [.buildReplaceTable 55] rfl rfl rfl rfl rfl rfl⟩

/-- Witness for C3 at a concrete environment: a Background table job returns
the sentinel version with the detached spawn as its last synchronous step. -/
theorem c3_background_returns_sentinel_witness :
    jobBgS = (jobBg.setTableFragmentId fgW.tableFragmentId).setDmlFragmentId
      fgW.dmlFragmentId ∧
    jobBg.createType = .background ∧
    envOk.buildFragmentGraph gW jobBg = .ok fgW ∧
    envOk.createInternalTableCatalog jobBgS.id fgW.internalTables = .ok idMapW ∧
    fgW.refill_internal_table_ids idMapW = some fgW2 ∧
    envOk.buildStreamJob fgW2 = .ok 0 ∧
    (validateStage envOk jobBgS).1 = .ok () ∧
    envOk.prepareStreamingJob false = .ok () ∧
    (create_streaming_job_inner_v2 envOk jobBg gW =
      (.ok IGNORED_NOTIFICATION_VERSION,
        ([.buildFragmentGraph gW, .createInternalTableCatalog jobBgS.id fgW.internalTables,
          .refillInternalTableIds idMapW, .buildStreamJob fgW2] ++
         (validateStage envOk jobBgS).2 ++
         [.prepareStreamingJob false, .spawnBackgroundJob jobBgS.id])) ∧
     ((create_streaming_job_inner_v2 envOk jobBg gW).2.countP Event.isStreamCreate = 0 ∧
      (create_streaming_job_inner_v2 envOk jobBg gW).2.countP Event.isFinishJob = 0)) :=
  ⟨rfl, rfl, rfl, rfl, rfl, rfl, rfl, rfl,
   c3_background_returns_sentinel envOk jobBg gW fgW idMapW fgW2 0 jobBgS rfl rfl rfl rfl
     rfl rfl rfl rfl⟩

/-- Witness for C4 at a concrete environment with a failing activation. -/
theorem c4_background_fut_finish_iff_create_ok_witness :
    envCreateErr.streamCreateStreamingJob = .error (.planning 1) ∧
    (((background_fut envCreateErr 9).countP Event.isFinishJob = 1 ↔
        envCreateErr.streamCreateStreamingJob = .ok ()) ∧
     (background_fut envCreateErr 9).countP Event.isStreamCreate = 1 ∧
     (background_fut envCreateErr 9).countP Event.isFinishJob ≤ 1 ∧
     (∀ e, envCreateErr.streamCreateStreamingJob = .error e →
        background_fut envCreateErr 9 =
          [.streamCreateStreamingJob, .logBackgroundCreateFailed 9]) ∧
     (∀ e, envCreateErr.streamCreateStreamingJob = .ok () →
        envCreateErr.finishStreamingJob 9 = .error e →
        background_fut envCreateErr 9 =
          [.streamCreateStreamingJob, .finishStreamingJob 9,
           .logBackgroundFinishFailed 9])) :=
  ⟨rfl, c4_background_fut_finish_iff_create_ok envCreateErr 9⟩

/-- Witness for C5 at a concrete foreground run. -/
theorem c5_foreground_version_from_finish_witness :
    (jobFg.createType = .unspecified ∨ jobFg.createType = .foreground) ∧
    ((∀ v tr, create_streaming_job_inner_v2 envOk jobFg gW = (.ok v, tr) →
        envOk.streamCreateStreamingJob = .ok () ∧
        envOk.finishStreamingJob jobFg.id = .ok v ∧
        ∃ pre, tr = pre ++ [.streamCreateStreamingJob, .finishStreamingJob jobFg.id]) ∧
     (∀ res tr, create_streaming_job_inner_v2 envOk jobFg gW = (res, tr) →
        0 < tr.countP Event.isFinishJob → envOk.streamCreateStreamingJob = .ok ())) :=
  ⟨Or.inr rfl, c5_foreground_version_from_finish envOk jobFg gW (Or.inr rfl)⟩

/-- Witness for C6 at a concrete run with one internal table. -/
theorem c6_refill_exactly_once_witness :
    jobFgS = (jobFg.setTableFragmentId fgW.tableFragmentId).setDmlFragmentId
      fgW.dmlFragmentId ∧
    envOk.buildFragmentGraph gW jobFg = .ok fgW ∧
    envOk.createInternalTableCatalog jobFgS.id fgW.internalTables = .ok idMapW ∧
    fgW.refill_internal_table_ids idMapW = some fgW2 ∧
    (∀ q ∈ idMapW, q.2 ∉ fgW.placeholderIds) ∧
    (∀ q1 ∈ idMapW, ∀ q2 ∈ idMapW, q1.2 = q2.2 → q1.1 = q2.1) ∧
    (fgW.internalTables.map (fun t => t.id)).Nodup ∧
    ((∃ rest, (create_streaming_job_inner_v2 envOk jobFg gW).2 =
        [.buildFragmentGraph gW, .createInternalTableCatalog jobFgS.id fgW.internalTables,
         .refillInternalTableIds idMapW, .buildStreamJob fgW2] ++ rest ∧
        rest.countP Event.isRefillCall = 0 ∧ rest.countP Event.isCreateInternalCall = 0) ∧
     (create_streaming_job_inner_v2 envOk jobFg gW).2.countP Event.isRefillCall = 1 ∧
     (create_streaming_job_inner_v2 envOk jobFg gW).2.countP Event.isCreateInternalCall = 1 ∧
     (∀ r ∈ fgW2.stateTableRefs, r ∉ fgW.placeholderIds) ∧
     (∀ t ∈ fgW2.internalTables, t.id ∉ fgW.placeholderIds) ∧
     (fgW2.internalTables.map (fun t => t.id)).Nodup ∧
     fgW2.internalTables.length = fgW.internalTables.length) :=
  ⟨rfl, rfl, rfl, rfl, by decide, by decide, by decide,
   c6_refill_exactly_once envOk jobFg gW fgW idMapW fgW2 jobFgS rfl rfl rfl rfl
     (by decide) (by decide) (by decide)⟩

/-- Witness for C7 at a concrete sink-into-table job. -/
theorem c7_sink_into_table_unsupported_witness :
    envOk.buildFragmentGraph gW
      (.sink ⟨4⟩ (some ⟨9, 0, 0, some 3, .foreground⟩)) = .ok fgW ∧
    envOk.createInternalTableCatalog (PbSink.mk 4).id fgW.internalTables = .ok idMapW ∧
    fgW.refill_internal_table_ids idMapW = some fgW2 ∧
    envOk.buildStreamJob fgW2 = .ok 0 ∧
    create_streaming_job_inner_v2 envOk
        (.sink ⟨4⟩ (some ⟨9, 0, 0, some 3, .foreground⟩)) gW =
      (.panic "support create sink into table in v2",
       [.buildFragmentGraph gW,
        .createInternalTableCatalog (PbSink.mk 4).id fgW.internalTables,
        .refillInternalTableIds idMapW, .buildStreamJob fgW2]) :=
  ⟨rfl, rfl, rfl, rfl,
   (c7_sink_into_table_unsupported envOk ⟨4⟩ ⟨9, 0, 0, some 3, .foreground⟩ gW).2
     fgW idMapW fgW2 0 rfl rfl rfl rfl⟩

/-- Witness for C8 at a concrete source job and one-fragment graph. -/
theorem c8_source_job_propagates_source_id_witness :
    gW.ctx = some 0 ∧
    envOk.createJobCatalog jobSrc = .ok (.source ⟨5⟩) ∧
    propagateSourceId (PbSource.mk 5).id gW = some gW1 ∧
    ((∀ fr ∈ gW1.fragments, nodeSourcesSet (PbSource.mk 5).id fr.root = true) ∧
     ∃ rest, (create_streaming_job_v2 envOk jobSrc gW).2 =
       [.createJobCatalog jobSrc, .acquireCreatingPermit, .acquireRescheduleLockShared,
        .buildFragmentGraph gW1] ++ rest) :=
  ⟨rfl, rfl, rfl,
   c8_source_job_propagates_source_id envOk jobSrc gW 0 ⟨5⟩ gW1 rfl rfl rfl⟩

end RisingWave
